import Mathlib

/-!
# Register translators of the PIM4328 / PIM4820 / PIM4006 and STPDDC60 PMBus drivers

A shallow embedding of `drivers/hwmon/pmbus/pim4328.c` and
`drivers/hwmon/pmbus/stpddc60.c`.

* C `int` values are integers; arithmetic that can leave the range of its C
  type is wrapped explicitly with `wrap` (two's complement, as the kernel is
  built with wrapping signed arithmetic).
* The bitwise operators `&` and `|` are `Int.land` and `Int.lor`, the
  two's-complement operations on integers; on two values of a C `int` their
  result is again a value of a C `int`, so no wrap is needed around them.
* The transport (`pmbus_read_byte_data`, `pmbus_read_word_data`) is a
  parameter: a `Bus` over an arbitrary device state. Every transport access is
  recorded in the client's `trace`, every `dev_notice` in its `klog`.
* The collaborators of the probes (adapter capabilities, allocation, block
  read, coefficient fetch, generic bind) are a parameter too: a `Host` of
  responses. A probe returns an `Outcome`: its return value, the descriptor it
  handed to the generic bind, the calls it made and the messages it logged.
  The model string is the C string held in the block-read buffer.
-/

namespace Pmbus

/-! ## Machine integers -/

/-- Width of the C type `int`. -/
def INT_BITS : Nat := 32

/-- The value a two's-complement machine integer of `bits` bits holds after
the exact result `x` has been stored in it. -/
def wrap (bits : Nat) (x : Int) : Int :=
  let m := x % 2 ^ bits
  if m < 2 ^ (bits - 1) then m else m - 2 ^ bits

/-! ## Constants of the framework -/

/-- Modelled from the spec: the error kind `NoSuchDevice` / `NoSuchRegister`
is the errno `ENXIO`; its number comes from the kernel's errno header, which
is not among the sources. -/
def ENXIO : Int := 6

/-- Modelled from the spec: the error kind `AccessDenied` is the errno
`EACCES`; its number comes from the kernel's errno header, which is not among
the sources. -/
def EACCES : Int := 13

/-- Modelled from the spec: the error kind `NoData` is the errno `ENODATA`;
its number comes from the kernel's errno header, which is not among the
sources. -/
def ENODATA : Int := 61

/-- Modelled from the spec: standardized register `Vout mode`; the command
codes are declared in the framework header `drivers/hwmon/pmbus/pmbus.h`,
which is not among the sources. -/
def PMBUS_VOUT_MODE : Int := 0x20

/-- Modelled from the spec: standardized register `over-voltage fault limit`
(command code of the absent framework header). -/
def PMBUS_VOUT_OV_FAULT_LIMIT : Int := 0x40

/-- Modelled from the spec: standardized register `under-voltage fault limit`
(command code of the absent framework header). -/
def PMBUS_VOUT_UV_FAULT_LIMIT : Int := 0x44

/-- Modelled from the spec: standardized register `status byte` (command code
of the absent framework header). -/
def PMBUS_STATUS_BYTE : Int := 0x78

/-- Modelled from the spec: standardized register `status word` (command code
of the absent framework header). -/
def PMBUS_STATUS_WORD : Int := 0x79

/-- Modelled from the spec: standardized register `status-input` (command code
of the absent framework header). -/
def PMBUS_STATUS_INPUT : Int := 0x7C

/-- Modelled from the spec: standardized register `read-Vin` (command code of
the absent framework header). -/
def PMBUS_READ_VIN : Int := 0x88

/-- Modelled from the spec: standardized register `read-Iin` (command code of
the absent framework header). -/
def PMBUS_READ_IIN : Int := 0x89

/-- Modelled from the spec: standardized register `read-Vout` (command code of
the absent framework header). -/
def PMBUS_READ_VOUT : Int := 0x8B

/-! ## Transport -/

/-- One access to the device through the transport. -/
inductive Access where
  | read_byte (page reg : Int)
  | read_word (page phase reg : Int)
  | write_word (page reg word : Int)
  deriving DecidableEq, Repr

/-- The informational messages the translator hooks emit with `dev_notice`. -/
inductive Notice where
  | ov_limit_readonly
  | uv_limit_readonly
  deriving DecidableEq, Repr

/-- The register-access transport the hooks consume: a byte read
`(page, reg)` and a word read `(page, phase, reg)`, each returning a C `int`
(a negative errno or the value read) and the device state after the access. -/
structure Bus (σ : Type) where
  read_byte_data : Int → Int → σ → Int × σ
  read_word_data : Int → Int → Int → σ → Int × σ

/-- The bound client: the state of the device behind the transport, the
transport accesses made so far (oldest first) and the notices logged so far. -/
structure Client (σ : Type) where
  dev : σ
  trace : List Access
  klog : List Notice
  deriving DecidableEq

/-- Transport byte read `pmbus_read_byte_data(client, page, reg)`: the
framework routine is not among the sources, so its answer is the parameter
`bus`; the access is appended to the trace. -/
def pmbus_read_byte_data {σ : Type} (bus : Bus σ) (page reg : Int)
    (c : Client σ) : Int × Client σ :=
  ((bus.read_byte_data page reg c.dev).1,
    { dev := (bus.read_byte_data page reg c.dev).2,
      trace := c.trace ++ [Access.read_byte page reg],
      klog := c.klog })

/-- Transport word read `pmbus_read_word_data(client, page, phase, reg)`: the
framework routine is not among the sources, so its answer is the parameter
`bus`; the access is appended to the trace. -/
def pmbus_read_word_data {σ : Type} (bus : Bus σ) (page phase reg : Int)
    (c : Client σ) : Int × Client σ :=
  ((bus.read_word_data page phase reg c.dev).1,
    { dev := (bus.read_word_data page phase reg c.dev).2,
      trace := c.trace ++ [Access.read_word page phase reg],
      klog := c.klog })

/-- Logging call `dev_notice(&client->dev, ...)`. -/
def dev_notice {σ : Type} (n : Notice) (c : Client σ) : Client σ :=
  { dev := c.dev, trace := c.trace, klog := c.klog ++ [n] }

end Pmbus

namespace Stpddc60

open Pmbus

/-! ## stpddc60.c -/

/-- Source `stpddc60_vid2mv(int val)`: `rv = 0; if (val >= 0x01)
rv = 250 + (val - 1) * 5;`. The right-hand side is computed in `int`; storing
it in the `long` result keeps its value. -/
def stpddc60_vid2mv (val : Int) : Int :=
  if val ≥ 0x01 then
    wrap INT_BITS (250 + wrap INT_BITS (wrap INT_BITS (val - 1) * 5))
  else 0

/-- Source `stpddc60_mv2l(long mv)`: `rv = (mv << 8) / 1000;` with `long` of
`lbits` bits; the shift and the truncating division are done in `long`, and
the quotient is stored in the `int` result. -/
def stpddc60_mv2l (lbits : Nat) (mv : Int) : Int :=
  wrap INT_BITS (Int.tdiv (wrap lbits (mv * 2 ^ 8)) 1000)

/-- Source `stpddc60_read_byte_data(client, page, reg)`. -/
def stpddc60_read_byte_data {σ : Type} (page reg : Int) (c : Client σ) :
    Int × Client σ :=
  if page > 0 then (- ENXIO, c)
  else if reg = PMBUS_VOUT_MODE then (0x18, c)
  else (- ENODATA, c)

/-- Source `stpddc60_read_word_data(client, page, phase, reg)`. -/
def stpddc60_read_word_data {σ : Type} (lbits : Nat) (bus : Bus σ)
    (page phase reg : Int) (c : Client σ) : Int × Client σ :=
  if page > 0 then (- ENXIO, c)
  else if reg = PMBUS_READ_VOUT then
    let r := pmbus_read_word_data bus page phase reg c
    if r.1 < 0 then r
    else (stpddc60_mv2l lbits (stpddc60_vid2mv r.1), r.2)
  else if reg = PMBUS_VOUT_OV_FAULT_LIMIT ∨ reg = PMBUS_VOUT_UV_FAULT_LIMIT then
    let r := pmbus_read_word_data bus page phase reg c
    if r.1 < 0 then r
    else (Int.land r.1 0x07ff, r.2)
  else (- ENODATA, c)

/-- Source `stpddc60_write_word_data(client, page, reg, word)`. -/
def stpddc60_write_word_data {σ : Type} (page reg : Int) (_word : Int)
    (c : Client σ) : Int × Client σ :=
  if page > 0 then (- ENXIO, c)
  else if reg = PMBUS_VOUT_OV_FAULT_LIMIT then
    (- EACCES, dev_notice Notice.ov_limit_readonly c)
  else if reg = PMBUS_VOUT_UV_FAULT_LIMIT then
    (- EACCES, dev_notice Notice.uv_limit_readonly c)
  else (- ENODATA, c)

end Stpddc60

namespace Pim4328

open Pmbus

/-! ## pim4328.c -/

/-- Source `enum chips { pim4328, pim4820, pim4006 }`. -/
inductive chips where
  | pim4328
  | pim4820
  | pim4006
  deriving DecidableEq, Repr

/-- Source `#define PIM4328_MFR_READ_VINA 0xd3`. -/
def PIM4328_MFR_READ_VINA : Int := 0xd3

/-- Source `#define PIM4328_MFR_READ_VINB 0xd4`. -/
def PIM4328_MFR_READ_VINB : Int := 0xd4

/-- Source `#define PIM4328_MFR_STATUS_BITS 0xd5`. -/
def PIM4328_MFR_STATUS_BITS : Int := 0xd5

/-- Source `#define PIM4328_MFR_READ_IINA 0xd6`. -/
def PIM4328_MFR_READ_IINA : Int := 0xd6

/-- Source `#define PIM4328_MFR_READ_IINB 0xd7`. -/
def PIM4328_MFR_READ_IINB : Int := 0xd7

/-- Source `#define PIM4328_MFR_FET_CHECKSTATUS 0xd9`. -/
def PIM4328_MFR_FET_CHECKSTATUS : Int := 0xd9

/-- Source `#define PIM4328_MFR_READ_STATUS 0xd0`. -/
def PIM4328_MFR_READ_STATUS : Int := 0xd0

/-- Source `pim4328_read_word_data(client, page, phase, reg)`; `id` is
`data->id` of the bound client. -/
def pim4328_read_word_data {σ : Type} (bus : Bus σ) (id : chips)
    (page phase reg : Int) (c : Client σ) : Int × Client σ :=
  if page > 0 then (- ENXIO, c)
  else if reg = PMBUS_STATUS_WORD then
    let r := pmbus_read_byte_data bus page PMBUS_STATUS_BYTE c
    let ret := r.1
    if ret ≥ 0 then
      match id with
      | chips.pim4006 =>
        let s := pmbus_read_word_data bus page 0xff PIM4328_MFR_FET_CHECKSTATUS r.2
        let status := s.1
        let ret := if status > 0 ∧ Int.land status 0x0030 ≠ 0 then Int.lor ret 0x08 else ret
        (ret, s.2)
      | chips.pim4328 =>
        let s := pmbus_read_byte_data bus page PIM4328_MFR_STATUS_BITS r.2
        let status := s.1
        if status > 0 then
          let ret := if Int.land status 0x04 ≠ 0 then Int.lor ret 0x08 else ret
          let ret := if Int.land status 0x40 ≠ 0 then Int.lor ret 0x80 else ret
          (ret, s.2)
        else (ret, s.2)
      | chips.pim4820 =>
        let s := pmbus_read_byte_data bus page PIM4328_MFR_READ_STATUS r.2
        let status := s.1
        if status > 0 then
          let ret := if Int.land status 0x05 ≠ 0 then Int.lor ret 0x2001 else ret
          let ret := if Int.land status 0x02 ≠ 0 then Int.lor ret 0x0008 else ret
          let ret := if Int.land status 0x40 ≠ 0 then Int.lor ret 0x0004 else ret
          (ret, s.2)
        else (ret, s.2)
    else (ret, r.2)
  else if reg = PMBUS_READ_VIN then
    if phase ≠ 0xff then
      pmbus_read_word_data bus page phase
        (if phase = 0 then PIM4328_MFR_READ_VINA else PIM4328_MFR_READ_VINB) c
    else (- ENODATA, c)
  else if reg = PMBUS_READ_IIN then
    if phase ≠ 0xff then
      pmbus_read_word_data bus page phase
        (if phase = 0 then PIM4328_MFR_READ_IINA else PIM4328_MFR_READ_IINB) c
    else (- ENODATA, c)
  else (- ENODATA, c)

/-- Source `pim4328_read_byte_data(client, page, reg)`; `id` is `data->id` of
the bound client. -/
def pim4328_read_byte_data {σ : Type} (bus : Bus σ) (id : chips)
    (page reg : Int) (c : Client σ) : Int × Client σ :=
  if page > 0 then (- ENXIO, c)
  else if reg = PMBUS_STATUS_BYTE then
    let r := pim4328_read_word_data bus id page 0xff PMBUS_STATUS_WORD c
    if r.1 > 0 then (Int.land r.1 0xff, r.2) else r
  else if reg = PMBUS_STATUS_INPUT then
    if id = chips.pim4820 then
      let ret : Int := 0
      let s := pmbus_read_byte_data bus page PIM4328_MFR_READ_STATUS c
      let status := s.1
      if status > 0 then
        let ret := if Int.land status 0x01 ≠ 0 then Int.lor ret 0x80 else ret
        let ret := if Int.land status 0x02 ≠ 0 then Int.lor ret 0x10 else ret
        let ret := if Int.land status 0x04 ≠ 0 then Int.lor ret 0x04 else ret
        (ret, s.2)
      else (ret, s.2)
    else (- ENXIO, c)
  else (- ENODATA, c)

end Pim4328

namespace Pmbus

/-! ## Probe-time collaborators -/

/-- Modelled from the spec: the errno `ENOMEM` of a failed allocation; its
number comes from the kernel's errno header, which is not among the
sources. -/
def ENOMEM : Int := 12

/-- Modelled from the spec: the error kind `DeviceNotReady` is the errno
`ENODEV`; its number comes from the kernel's errno header, which is not among
the sources. -/
def ENODEV : Int := 19

/-- Modelled from the spec: source register of the `voltage-cap` coefficient
fetch (command code of the absent framework header). -/
def PMBUS_READ_VCAP : Int := 0x8A

/-- Modelled from the spec: source register of the `output-current`
coefficient fetch (command code of the absent framework header). -/
def PMBUS_READ_IOUT : Int := 0x8C

/-- Modelled from the spec: source register of the `temperature` coefficient
fetch (command code of the absent framework header). -/
def PMBUS_READ_TEMPERATURE_1 : Int := 0x8D

/-- Modelled from the spec: the `manufacturer-model` register (command code of
the absent framework header). -/
def PMBUS_MFR_MODEL : Int := 0x9A

/-- Modelled from the spec: transport capability `byte read`; the bit comes
from the absent header `linux/i2c.h`. -/
def I2C_FUNC_SMBUS_READ_BYTE_DATA : Nat := 0x00080000

/-- Modelled from the spec: transport capability `block read` (block read and
block write bits of the absent header `linux/i2c.h`). -/
def I2C_FUNC_SMBUS_BLOCK_DATA : Nat := 0x03000000

/-- Modelled from the spec: transport capability `block-process-call`; the bit
comes from the absent header `linux/i2c.h`. -/
def I2C_FUNC_SMBUS_BLOCK_PROC_CALL : Nat := 0x00008000

/-- Modelled from the spec: capability flag `input voltage`; the bits of the
capability flags come from the absent framework header. -/
def PMBUS_HAVE_VIN : Nat := 2 ^ 0

/-- Modelled from the spec: capability flag `Vcap` (bit of the absent
framework header). -/
def PMBUS_HAVE_VCAP : Nat := 2 ^ 1

/-- Modelled from the spec: capability flag `output voltage` (bit of the
absent framework header). -/
def PMBUS_HAVE_VOUT : Nat := 2 ^ 2

/-- Modelled from the spec: capability flag `input current` (bit of the absent
framework header). -/
def PMBUS_HAVE_IIN : Nat := 2 ^ 3

/-- Modelled from the spec: capability flag `output current` (bit of the
absent framework header). -/
def PMBUS_HAVE_IOUT : Nat := 2 ^ 4

/-- Modelled from the spec: capability flag `output power` (bit of the absent
framework header). -/
def PMBUS_HAVE_POUT : Nat := 2 ^ 6

/-- Modelled from the spec: capability flag `temperature` (bit of the absent
framework header). -/
def PMBUS_HAVE_TEMP : Nat := 2 ^ 9

/-- Modelled from the spec: capability flag `status-Vout` (bit of the absent
framework header). -/
def PMBUS_HAVE_STATUS_VOUT : Nat := 2 ^ 12

/-- Modelled from the spec: capability flag `status-Iout` (bit of the absent
framework header). -/
def PMBUS_HAVE_STATUS_IOUT : Nat := 2 ^ 13

/-- Modelled from the spec: capability flag `status-input` (bit of the absent
framework header). -/
def PMBUS_HAVE_STATUS_INPUT : Nat := 2 ^ 14

/-- Modelled from the spec: capability flag `status-Temp` (bit of the absent
framework header). -/
def PMBUS_HAVE_STATUS_TEMP : Nat := 2 ^ 15

/-- Modelled from the spec: capability flag `virtual-phase` (bit of the absent
framework header). -/
def PMBUS_PHASE_VIRTUAL : Nat := 2 ^ 30

/-- The capability flags named by the two drivers. -/
def capability_flags : List Nat :=
  [PMBUS_HAVE_VIN, PMBUS_HAVE_VCAP, PMBUS_HAVE_VOUT, PMBUS_HAVE_IIN, PMBUS_HAVE_IOUT,
    PMBUS_HAVE_POUT, PMBUS_HAVE_TEMP, PMBUS_HAVE_STATUS_VOUT, PMBUS_HAVE_STATUS_IOUT,
    PMBUS_HAVE_STATUS_INPUT, PMBUS_HAVE_STATUS_TEMP, PMBUS_PHASE_VIRTUAL]

/-- Modelled from the spec: the quantity classes a numeric format is kept
for (`enum pmbus_sensor_classes` of the absent framework header). -/
inductive pmbus_sensor_classes where
  | PSC_VOLTAGE_IN
  | PSC_VOLTAGE_OUT
  | PSC_CURRENT_IN
  | PSC_CURRENT_OUT
  | PSC_POWER
  | PSC_TEMPERATURE
  | PSC_FAN
  | PSC_PWM
  deriving DecidableEq, Repr

/-- Modelled from the spec: the per-quantity numeric format tag
(`enum pmbus_data_format` of the absent framework header); `linear` is the
value of zeroed memory. -/
inductive pmbus_data_format where
  | linear
  | direct
  | vid
  deriving DecidableEq, Repr

/-- The translator hooks a driver can install in its descriptor, by name. -/
inductive Hook where
  | pim4328_read_byte_data
  | pim4328_read_word_data
  | stpddc60_read_byte_data
  | stpddc60_read_word_data
  | stpddc60_write_word_data
  deriving DecidableEq, Repr

/-- Modelled from the spec: the `DeviceDescriptor` (`struct pmbus_driver_info`
of the absent framework header): page count, phase count per page, numeric
format per quantity class, capability flags per page, capability flags per
phase and the installed translator hooks. -/
structure pmbus_driver_info where
  pages : Int
  phases : Nat → Int
  format : pmbus_sensor_classes → pmbus_data_format
  func : Nat → Nat
  pfunc : Nat → Nat
  read_byte_data : Option Hook
  read_word_data : Option Hook
  write_word_data : Option Hook

/-- A descriptor in zeroed memory, as `devm_kzalloc` and static storage
provide it. -/
def pmbus_driver_info.zeroed : pmbus_driver_info where
  pages := 0
  phases := fun _ => 0
  format := fun _ => pmbus_data_format.linear
  func := fun _ => 0
  pfunc := fun _ => 0
  read_byte_data := none
  read_word_data := none
  write_word_data := none

/-- Source `struct i2c_device_id` entries `{name, driver_data}`; the name is
the character string without its terminating NUL. -/
structure i2c_device_id (α : Type) where
  name : List Char
  driver_data : α
  deriving DecidableEq

/-- The calls a probe makes to its external collaborators. -/
inductive Call where
  | check_functionality (flags : Nat)
  | kzalloc
  | read_block_data (reg : Int)
  | read_coefficients (cls : pmbus_sensor_classes) (reg : Int)
  | do_probe
  deriving DecidableEq, Repr

/-- The messages a probe logs with `dev_err` and `dev_notice`. -/
inductive Msg where
  | failed_to_read_model
  | unsupported_device
  | device_mismatch (configured detected : List Char)
  | failed_to_read_coefficients (reg : Int)
  deriving DecidableEq, Repr

/-- The responses of the external collaborators during one probe: the
adapter's functionality bits, whether `devm_kzalloc` succeeds, the status and
buffer of `i2c_smbus_read_block_data` per register, the status of
`pmbus_read_coefficients` per quantity class and source register, and the
result of `pmbus_do_probe` on the descriptor handed to it. -/
structure Host where
  functionality : Nat
  kzalloc_ok : Bool
  read_block_data : Int → Int × List Char
  read_coefficients : pmbus_sensor_classes → Int → Int
  do_probe : pmbus_driver_info → Int

/-- The calls made and the messages logged by a probe so far, oldest first. -/
structure ProbeLog where
  calls : List Call
  klog : List Msg
  deriving DecidableEq

/-- Record a call to a collaborator. -/
def ProbeLog.call (l : ProbeLog) (x : Call) : ProbeLog :=
  { calls := l.calls ++ [x], klog := l.klog }

/-- Record a logged message. -/
def ProbeLog.msg (l : ProbeLog) (m : Msg) : ProbeLog :=
  { calls := l.calls, klog := l.klog ++ [m] }

/-- What a probe leaves behind: its return value, the descriptor it handed to
`pmbus_do_probe` (if it got that far) and its log. -/
structure Outcome (δ : Type) where
  ret : Int
  bound : Option δ
  log : ProbeLog

/-- Modelled from the spec: `i2c_check_functionality(adapter, flags)` of the
absent header `linux/i2c.h`: the transport supports every requested
capability. -/
def i2c_check_functionality (host : Host) (flags : Nat) : Bool :=
  host.functionality &&& flags == flags

/-- The NUL character that terminates a C string. -/
def NUL : Char := Char.ofNat 0

/-- Modelled from the spec: the library routine `tolower` is not among the
sources; matching is case-insensitive on ASCII letters. -/
def tolower (ch : Char) : Char := ch.toLower

/-- Modelled from the spec: the library routine `strlen` is not among the
sources; the number of characters before the terminating NUL. -/
def strlen (s : List Char) : Nat := (s.takeWhile (fun ch => ch != NUL)).length

/-- Modelled from the spec: the library routine `strncasecmp` is not among the
sources; the spec's `case-insensitive prefix match` compares at most `len`
characters of two NUL-terminated strings without regard to case and returns
zero exactly when they agree. A list that ends stands for the terminating
NUL. -/
def strncasecmp : List Char → List Char → Nat → Int
  | _, _, 0 => 0
  | s1, s2, len + 1 =>
    let c1 := s1.headD NUL
    let c2 := s2.headD NUL
    if c1 = NUL ∨ c2 = NUL then (c1.toNat : Int) - (c2.toNat : Int)
    else if c1 = c2 then strncasecmp s1.tail s2.tail len
    else if tolower c1 ≠ tolower c2 then
      ((tolower c1).toNat : Int) - ((tolower c2).toNat : Int)
    else strncasecmp s1.tail s2.tail len

/-- Source, the table scan of both probes:
`for (mid = table; mid->name[0]; mid++)
   if (!strncasecmp(mid->name, device_id, strlen(mid->name))) break;`
The result `none` stands for the empty entry that ends the table. -/
def scan_id_table {α : Type} (table : List (i2c_device_id α))
    (device_id : List Char) : Option (i2c_device_id α) :=
  table.find? (fun mid => strncasecmp mid.name device_id (strlen mid.name) == 0)

/-- The C string a character buffer holds: its characters before the first
NUL. -/
def c_string (buf : List Char) : List Char := buf.takeWhile (fun ch => ch != NUL)

/-- The spec's matching rule, in its own words: `name` is an ASCII
case-insensitive prefix of the model string held in the buffer `s`. -/
def starts_with_nocase (s name : List Char) : Prop :=
  name.map tolower <+: (c_string s).map tolower

instance (s name : List Char) : Decidable (starts_with_nocase s name) := by
  unfold starts_with_nocase
  exact inferInstance

/-- Leaving a probe through `abort: return -ENODEV;`. -/
def abort {δ : Type} (l : ProbeLog) : Outcome δ :=
  { ret := - ENODEV, bound := none, log := l }

end Pmbus

namespace Pim4328

open Pmbus

/-! ## pim4328.c: probe -/

/-- Source `struct pim4328_data { enum chips id; struct pmbus_driver_info info; }`. -/
structure pim4328_data where
  id : chips
  info : pmbus_driver_info

/-- Source `pim4328_id[]`, without the empty entry that ends it. -/
def pim4328_id : List (i2c_device_id chips) :=
  [ ⟨"pim4328".toList, chips.pim4328⟩,
    ⟨"pim4820".toList, chips.pim4820⟩,
    ⟨"pim4006".toList, chips.pim4006⟩,
    ⟨"pim4106".toList, chips.pim4006⟩,
    ⟨"pim4206".toList, chips.pim4006⟩,
    ⟨"pim4306".toList, chips.pim4006⟩,
    ⟨"pim4406".toList, chips.pim4006⟩,
    ⟨"bmr455".toList, chips.pim4328⟩ ]

/-- Source, the `switch (data->id)` of `pim4328_probe` applied to the
descriptor whose page count and hooks are already set. The `default: goto
abort` arm is unreachable for a value of `enum chips`. -/
def register_map (id : chips) (info : pmbus_driver_info) : pmbus_driver_info :=
  match id with
  | chips.pim4820 =>
    { info with
      format := Function.update info.format pmbus_sensor_classes.PSC_VOLTAGE_IN
        pmbus_data_format.direct
      func := Function.update info.func 0
        (PMBUS_HAVE_VIN ||| PMBUS_HAVE_TEMP ||| PMBUS_HAVE_IIN |||
          PMBUS_HAVE_STATUS_INPUT) }
  | chips.pim4328 =>
    { info with
      phases := Function.update info.phases 0 2
      format := Function.update info.format pmbus_sensor_classes.PSC_VOLTAGE_IN
        pmbus_data_format.direct
      func := Function.update info.func 0
        (PMBUS_HAVE_VCAP ||| PMBUS_HAVE_VIN ||| PMBUS_HAVE_TEMP ||| PMBUS_HAVE_IOUT)
      pfunc := Function.update (Function.update info.pfunc 0 PMBUS_HAVE_VIN) 1
        PMBUS_HAVE_VIN }
  | chips.pim4006 =>
    { info with
      phases := Function.update info.phases 0 2
      format := Function.update info.format pmbus_sensor_classes.PSC_VOLTAGE_IN
        pmbus_data_format.linear
      func := Function.update info.func 0
        (PMBUS_PHASE_VIRTUAL ||| PMBUS_HAVE_VIN ||| PMBUS_HAVE_TEMP |||
          PMBUS_HAVE_IOUT)
      pfunc := Function.update
        (Function.update info.pfunc 0 (PMBUS_HAVE_VIN ||| PMBUS_HAVE_IIN)) 1
        (PMBUS_HAVE_VIN ||| PMBUS_HAVE_IIN) }

/-- Source, one block of `pim4328_probe`:
`if (info->func[0] & flag) { status = pmbus_read_coefficients(client, info,
cls, reg); if (status < 0) { dev_err(...); goto abort; } }`.
The first component tells whether the probe aborts. -/
def fetch_coefficients (host : Host) (info : pmbus_driver_info) (flag : Nat)
    (cls : pmbus_sensor_classes) (reg : Int) (l : ProbeLog) : Bool × ProbeLog :=
  if info.func 0 &&& flag ≠ 0 then
    if host.read_coefficients cls reg < 0 then
      (true, ((l.call (Call.read_coefficients cls reg)).msg
        (Msg.failed_to_read_coefficients reg)))
    else (false, l.call (Call.read_coefficients cls reg))
  else (false, l)

/-- Source, the tail of `pim4328_probe`: `return pmbus_do_probe(client, info);`. -/
def bind (host : Host) (data : pim4328_data) (l : ProbeLog) : Outcome pim4328_data :=
  { ret := host.do_probe data.info, bound := some data, log := l.call Call.do_probe }

/-- Source, `pim4328_probe` from `data->id = mid->driver_data;` to the end of
the `switch`: the zeroed descriptor with the detected variant stored, the page
count set to 1, the two hooks installed and the register map of the variant
filled in. -/
def build_data (v : chips) : pim4328_data :=
  { id := v
    info := register_map v
      { pmbus_driver_info.zeroed with
        pages := 1
        read_byte_data := some Hook.pim4328_read_byte_data
        read_word_data := some Hook.pim4328_read_word_data } }

/-- Source, `pim4328_probe` after the `switch`:
`if (info->format[PSC_VOLTAGE_IN] == direct) { ... }` with the
block-process-call check and the five coefficient fetches, then
`return pmbus_do_probe(client, info);`. -/
def fetch_and_bind (host : Host) (data : pim4328_data) (l3 : ProbeLog) :
    Outcome pim4328_data :=
  let info := data.info
  if info.format pmbus_sensor_classes.PSC_VOLTAGE_IN = pmbus_data_format.direct then
    let l4 := l3.call (Call.check_functionality I2C_FUNC_SMBUS_BLOCK_PROC_CALL)
    if ¬ i2c_check_functionality host I2C_FUNC_SMBUS_BLOCK_PROC_CALL then abort l4
    else
      let s1 := fetch_coefficients host info PMBUS_HAVE_VCAP
        pmbus_sensor_classes.PSC_VOLTAGE_OUT PMBUS_READ_VCAP l4
      if s1.1 then abort s1.2
      else
        let s2 := fetch_coefficients host info PMBUS_HAVE_VIN
          pmbus_sensor_classes.PSC_VOLTAGE_IN PMBUS_READ_VIN s1.2
        if s2.1 then abort s2.2
        else
          let s3 := fetch_coefficients host info PMBUS_HAVE_IIN
            pmbus_sensor_classes.PSC_CURRENT_IN PMBUS_READ_IIN s2.2
          if s3.1 then abort s3.2
          else
            let s4 := fetch_coefficients host info PMBUS_HAVE_IOUT
              pmbus_sensor_classes.PSC_CURRENT_OUT PMBUS_READ_IOUT s3.2
            if s4.1 then abort s4.2
            else
              let s5 := fetch_coefficients host info PMBUS_HAVE_TEMP
                pmbus_sensor_classes.PSC_TEMPERATURE PMBUS_READ_TEMPERATURE_1 s4.2
              if s5.1 then abort s5.2
              else bind host data s5.2
  else bind host data l3

/-- Source `pim4328_probe(client, id)`; `id` is the statically configured
table entry. -/
def pim4328_probe (host : Host) (id : i2c_device_id chips) : Outcome pim4328_data :=
  let l0 : ProbeLog :=
    { calls := [Call.check_functionality
        (I2C_FUNC_SMBUS_READ_BYTE_DATA ||| I2C_FUNC_SMBUS_BLOCK_DATA)],
      klog := [] }
  if ¬ i2c_check_functionality host
      (I2C_FUNC_SMBUS_READ_BYTE_DATA ||| I2C_FUNC_SMBUS_BLOCK_DATA) then abort l0
  else
    let l1 := l0.call Call.kzalloc
    if ¬ host.kzalloc_ok then { ret := - ENOMEM, bound := none, log := l1 }
    else
      let l2 := l1.call (Call.read_block_data PMBUS_MFR_MODEL)
      let status := (host.read_block_data PMBUS_MFR_MODEL).1
      let device_id := (host.read_block_data PMBUS_MFR_MODEL).2
      if status < 0 then abort (l2.msg Msg.failed_to_read_model)
      else
        match scan_id_table pim4328_id device_id with
        | none => abort (l2.msg Msg.unsupported_device)
        | some mid =>
          let l3 :=
            if id.driver_data ≠ mid.driver_data then
              l2.msg (Msg.device_mismatch id.name mid.name)
            else l2
          fetch_and_bind host (build_data mid.driver_data) l3

/-- The five coefficient requests of `pim4328_probe` in source order: the
capability flag that enables the request, the quantity class and the source
register. -/
def coefficient_requests : List (Nat × pmbus_sensor_classes × Int) :=
  [ (PMBUS_HAVE_VCAP, pmbus_sensor_classes.PSC_VOLTAGE_OUT, PMBUS_READ_VCAP),
    (PMBUS_HAVE_VIN, pmbus_sensor_classes.PSC_VOLTAGE_IN, PMBUS_READ_VIN),
    (PMBUS_HAVE_IIN, pmbus_sensor_classes.PSC_CURRENT_IN, PMBUS_READ_IIN),
    (PMBUS_HAVE_IOUT, pmbus_sensor_classes.PSC_CURRENT_OUT, PMBUS_READ_IOUT),
    (PMBUS_HAVE_TEMP, pmbus_sensor_classes.PSC_TEMPERATURE, PMBUS_READ_TEMPERATURE_1) ]

end Pim4328

namespace Stpddc60

open Pmbus

/-! ## stpddc60.c: probe -/

/-- Source `enum chips { stpddc60 }`. -/
inductive chips where
  | stpddc60
  deriving DecidableEq, Repr

/-- Source `stpddc60_id[]`, without the empty entry that ends it. -/
def stpddc60_id : List (i2c_device_id chips) :=
  [ ⟨"stpddc60".toList, chips.stpddc60⟩,
    ⟨"bmr481".toList, chips.stpddc60⟩ ]

/-- Source `static struct pmbus_driver_info stpddc60_info`. -/
def stpddc60_info : pmbus_driver_info :=
  { pmbus_driver_info.zeroed with
    pages := 1
    func := Function.update pmbus_driver_info.zeroed.func 0
      (PMBUS_HAVE_VOUT ||| PMBUS_HAVE_STATUS_VOUT
        ||| PMBUS_HAVE_VIN ||| PMBUS_HAVE_STATUS_INPUT
        ||| PMBUS_HAVE_TEMP ||| PMBUS_HAVE_STATUS_TEMP
        ||| PMBUS_HAVE_IOUT ||| PMBUS_HAVE_STATUS_IOUT
        ||| PMBUS_HAVE_POUT) }

/-- Source `stpddc60_probe(client, id)`. -/
def stpddc60_probe (host : Host) (_id : i2c_device_id chips) :
    Outcome pmbus_driver_info :=
  let l0 : ProbeLog :=
    { calls := [Call.check_functionality
        (I2C_FUNC_SMBUS_READ_BYTE_DATA ||| I2C_FUNC_SMBUS_BLOCK_DATA)],
      klog := [] }
  if ¬ i2c_check_functionality host
      (I2C_FUNC_SMBUS_READ_BYTE_DATA ||| I2C_FUNC_SMBUS_BLOCK_DATA) then
    { ret := - ENODEV, bound := none, log := l0 }
  else
    let l1 := l0.call (Call.read_block_data PMBUS_MFR_MODEL)
    let status := (host.read_block_data PMBUS_MFR_MODEL).1
    let device_id := (host.read_block_data PMBUS_MFR_MODEL).2
    if status < 0 then
      { ret := status, bound := none, log := l1.msg Msg.failed_to_read_model }
    else
      match scan_id_table stpddc60_id device_id with
      | none => { ret := - ENODEV, bound := none, log := l1.msg Msg.unsupported_device }
      | some _ =>
        let info : pmbus_driver_info :=
          { stpddc60_info with
            read_byte_data := some Hook.stpddc60_read_byte_data
            read_word_data := some Hook.stpddc60_read_word_data
            write_word_data := some Hook.stpddc60_write_word_data }
        { ret := host.do_probe info, bound := some info, log := l1.call Call.do_probe }

end Stpddc60

/-! ## A sample device -/

namespace Sample

open Pmbus

/-- A sample device: its state counts the accesses served. Byte reads answer
`0x41` for the status byte and `0x46` for every other register; word reads
answer `0x0010` for the FET-check register `0xd9`, `3` for Read-Vout (`0x8B`)
and `0xC803` for every other register. -/
def bus : Bus Nat where
  read_byte_data := fun _ reg n => (if reg = 0x78 then 0x41 else 0x46, n + 1)
  read_word_data := fun _ _ reg n =>
    (if reg = 0xd9 then 0x0010 else if reg = 0x8B then 3 else 0xC803, n + 1)

/-- A sample device on which every transport read fails with `-EIO` (`-5`). -/
def deadBus : Bus Nat where
  read_byte_data := fun _ _ n => (-5, n + 1)
  read_word_data := fun _ _ _ n => (-5, n + 1)

/-- A freshly bound client of a sample device. -/
def client : Client Nat := { dev := 0, trace := [], klog := [] }

/-- A sample host: an adapter with every capability, a successful allocation,
the model string `PIM4328`, successful coefficient fetches and a generic bind
that returns 0. -/
def host : Host where
  functionality := 0x0308ffff
  kzalloc_ok := true
  read_block_data := fun _ => (7, "PIM4328".toList)
  read_coefficients := fun _ _ => 0
  do_probe := fun _ => 0

/-- A sample host like `host` whose device reports the model `pim4820-x`. -/
def host4820 : Host where
  functionality := 0x0308ffff
  kzalloc_ok := true
  read_block_data := fun _ => (9, "pim4820-x".toList)
  read_coefficients := fun _ _ => 0
  do_probe := fun _ => 0

/-- A sample host like `host` on which `devm_kzalloc` fails. -/
def host_nomem : Host where
  functionality := 0x0308ffff
  kzalloc_ok := false
  read_block_data := fun _ => (7, "PIM4328".toList)
  read_coefficients := fun _ _ => 0
  do_probe := fun _ => 0

/-- A sample host like `host` on which the block read of the model fails with
`-EIO` (`-5`). -/
def host_noblock : Host where
  functionality := 0x0308ffff
  kzalloc_ok := true
  read_block_data := fun _ => (-5, [])
  read_coefficients := fun _ _ => 0
  do_probe := fun _ => 0

/-- A sample host like `host` whose device reports the model `BMR481` and
whose generic bind returns 7. -/
def host_regulator : Host where
  functionality := 0x0308ffff
  kzalloc_ok := true
  read_block_data := fun _ => (6, "BMR481".toList)
  read_coefficients := fun _ _ => 0
  do_probe := fun _ => 7

/-- A statically configured table entry that expects a pim4006. -/
def configured : i2c_device_id Pim4328.chips :=
  { name := "pim4006".toList, driver_data := Pim4328.chips.pim4006 }

end Sample

/-! ## Lemmas on machine integers and bit masks -/

namespace Pmbus

/-- A value inside the range of a `bits`-bit signed integer is stored
unchanged. -/
theorem wrap_eq_self (bits : Nat) (hb : 1 ≤ bits) (x : Int)
    (hlo : -(2 ^ (bits - 1)) ≤ x) (hhi : x < 2 ^ (bits - 1)) :
    wrap bits x = x := by
  have hpow : (2 : Int) ^ bits = 2 * 2 ^ (bits - 1) := by
    obtain ⟨k, rfl⟩ : ∃ k, bits = k + 1 := ⟨bits - 1, by omega⟩
    simp [pow_succ, mul_comm]
  have hpos : (0 : Int) < 2 ^ (bits - 1) := by positivity
  unfold wrap
  rw [hpow]
  generalize (2 : Int) ^ (bits - 1) = P at *
  by_cases hx : 0 ≤ x
  · have h : x % (2 * P) = x := Int.emod_eq_of_lt hx (by omega)
    simp only [h]
    rw [if_pos hhi]
  · have h : x % (2 * P) = x + 2 * P := by
      have h1 : (x + 2 * P) % (2 * P) = x + 2 * P :=
        Int.emod_eq_of_lt (by omega) (by omega)
      rw [← h1]; simp
    simp only [h]
    rw [if_neg (by omega)]
    omega

/-- A value inside the range of a 32-bit signed integer is stored unchanged in
every signed integer type of at least 32 bits. -/
theorem wrap_eq_self_of_int (bits : Nat) (hb : 32 ≤ bits) (x : Int)
    (hlo : -(2 ^ 31) ≤ x) (hhi : x < 2 ^ 31) : wrap bits x = x := by
  have hmono : (2 : Int) ^ 31 ≤ 2 ^ (bits - 1) :=
    pow_le_pow_right₀ (by norm_num) (by omega)
  exact wrap_eq_self bits (by omega) x (by omega) (by omega)

end Pmbus

namespace Stpddc60

open Pmbus

/-- Below the first code whose millivolt value leaves the range of `int`, the
conversion is the exact linear scale. -/
theorem vid2mv_exact (n : Int) (h1 : 1 ≤ n) (h2 : n ≤ 429496680) :
    stpddc60_vid2mv n = 250 + (n - 1) * 5 := by
  unfold stpddc60_vid2mv
  rw [if_pos (by omega)]
  have e1 : wrap INT_BITS (n - 1) = n - 1 :=
    wrap_eq_self_of_int 32 (le_refl _) _ (by norm_num; omega) (by norm_num; omega)
  have e2 : wrap INT_BITS ((n - 1) * 5) = (n - 1) * 5 :=
    wrap_eq_self_of_int 32 (le_refl _) _ (by norm_num; omega) (by norm_num; omega)
  have e3 : wrap INT_BITS (250 + (n - 1) * 5) = 250 + (n - 1) * 5 :=
    wrap_eq_self_of_int 32 (le_refl _) _ (by norm_num; omega) (by norm_num; omega)
  rw [e1, e2, e3]

/-- Codes below one convert to zero millivolts. -/
theorem vid2mv_of_lt_one (n : Int) (h : n < 1) : stpddc60_vid2mv n = 0 := by
  unfold stpddc60_vid2mv
  rw [if_neg (by omega)]

/-- While `mv << 8` stays inside the range of `int`, the conversion is the
exact floor of `mv * 256 / 1000`. -/
theorem mv2l_exact (lbits : Nat) (hl : 32 ≤ lbits) (mv : Int) (h0 : 0 ≤ mv)
    (h1 : mv < 8388608) : stpddc60_mv2l lbits mv = mv * 256 / 1000 := by
  unfold stpddc60_mv2l
  have e1 : wrap lbits (mv * 2 ^ 8) = mv * 256 := by
    rw [wrap_eq_self_of_int lbits hl _ (by norm_num; omega) (by norm_num; omega)]
    norm_num
  rw [e1, Int.tdiv_eq_ediv (by omega) (by norm_num)]
  have hq0 : 0 ≤ mv * 256 / 1000 := Int.ediv_nonneg (by omega) (by norm_num)
  have hq1 : mv * 256 / 1000 < 2147483648 := by omega
  exact wrap_eq_self_of_int 32 (le_refl _) _ (by norm_num; omega) (by norm_num; omega)

end Stpddc60

namespace Pmbus

/-- A bitwise `or` of naturals vanishes only if both operands vanish. -/
theorem nat_or_eq_zero (x y : Nat) : x ||| y = 0 ↔ x = 0 ∧ y = 0 := by
  constructor
  · intro h
    have hb : ∀ i, (x.testBit i || y.testBit i) = false := by
      intro i
      rw [← Nat.testBit_or, h]
      simp
    constructor
    · apply Nat.zero_of_testBit_eq_false
      intro i
      have := hb i
      simp only [Bool.or_eq_false_iff] at this
      exact this.1
    · apply Nat.zero_of_testBit_eq_false
      intro i
      have := hb i
      simp only [Bool.or_eq_false_iff] at this
      exact this.2
  · rintro ⟨rfl, rfl⟩
    rfl

/-- On a non-negative value, a mask that is the union of two masks selects a
set bit exactly when one of the two masks does. -/
theorem land_union_ne_zero (s : Int) (hs : 0 ≤ s) (p q : Nat) :
    Int.land s ((p ||| q : Nat) : Int) ≠ 0 ↔
      Int.land s (p : Int) ≠ 0 ∨ Int.land s (q : Int) ≠ 0 := by
  obtain ⟨n, rfl⟩ := Int.eq_ofNat_of_zero_le hs
  show ((n &&& (p ||| q) : Nat) : Int) ≠ 0 ↔
    ((n &&& p : Nat) : Int) ≠ 0 ∨ ((n &&& q : Nat) : Int) ≠ 0
  rw [Nat.and_or_distrib_left]
  simp only [ne_eq, Int.natCast_eq_zero, nat_or_eq_zero]
  tauto

/-- Masking a non-negative value with `2 ^ k - 1` keeps its residue modulo
`2 ^ k`. -/
theorem land_low_mask (r : Int) (hr : 0 ≤ r) (k : Nat) :
    Int.land r ((2 ^ k - 1 : Nat) : Int) = r % 2 ^ k := by
  obtain ⟨n, rfl⟩ := Int.eq_ofNat_of_zero_le hr
  show ((n &&& (2 ^ k - 1) : Nat) : Int) = (n : Int) % 2 ^ k
  rw [Nat.and_pow_two_sub_one_eq_mod]
  push_cast
  rfl

/-- A bitwise `or` with zero leaves a non-negative value unchanged. -/
theorem lor_zero_of_nonneg (b : Int) (hb : 0 ≤ b) : Int.lor b 0 = b := by
  obtain ⟨n, rfl⟩ := Int.eq_ofNat_of_zero_le hb
  show ((n ||| 0 : Nat) : Int) = (n : Int)
  rw [Nat.or_zero]

/-- A bitwise `or` of non-negative values is non-negative. -/
theorem lor_nonneg (b m : Int) (hb : 0 ≤ b) (hm : 0 ≤ m) : 0 ≤ Int.lor b m := by
  obtain ⟨n, rfl⟩ := Int.eq_ofNat_of_zero_le hb
  obtain ⟨k, rfl⟩ := Int.eq_ofNat_of_zero_le hm
  show (0 : Int) ≤ ((n ||| k : Nat) : Int)
  exact Int.natCast_nonneg _

/-- The C statement `if (p) ret |= m;` on a non-negative `ret` is a bitwise
`or` with the mask selected by `p`. -/
theorem ite_lor (x m : Int) (hx : 0 ≤ x) (p : Prop) [Decidable p] :
    (if p then Int.lor x m else x) = Int.lor x (if p then m else 0) := by
  by_cases h : p
  · rw [if_pos h, if_pos h]
  · rw [if_neg h, if_neg h, lor_zero_of_nonneg x hx]

/-- The value after `if (p) ret |= m;` is non-negative when `ret` and the
mask are. -/
theorem lor_ite_nonneg (x m : Int) (hx : 0 ≤ x) (hm : 0 ≤ m) (p : Prop)
    [Decidable p] : 0 ≤ Int.lor x (if p then m else 0) := by
  by_cases h : p
  · rw [if_pos h]; exact lor_nonneg x m hx hm
  · rw [if_neg h, lor_zero_of_nonneg x hx]; exact hx

end Pmbus

/-! ## The claims -/

open Pmbus Pim4328

open Stpddc60 hiding chips

/-- C1: regulator word read of Read-Vout on a page `<= 0`, any phase: the hook
makes one transport word read of Read-Vout; a negative result `w` is returned
unchanged; a raw word `0 <= w <= 0xFFFF` is returned as
`stpddc60_mv2l (stpddc60_vid2mv w)`, which is `0` for `w = 0` and the exact
integer `floor((250 + (w-1)*5) * 256 / 1000)` for `w >= 1`: no step of the
`int`/`long` arithmetic wraps, for every width of `long` of at least 32 bits. -/
theorem C1_read_vout {σ : Type} (lbits : Nat) (hl : 32 ≤ lbits) (bus : Bus σ)
    (page phase : Int) (c : Client σ) (hp : page ≤ 0) (w : Int) (d : σ)
    (hr : bus.read_word_data page phase PMBUS_READ_VOUT c.dev = (w, d)) :
    (stpddc60_read_word_data lbits bus page phase PMBUS_READ_VOUT c).2 =
        { dev := d,
          trace := c.trace ++ [Access.read_word page phase PMBUS_READ_VOUT],
          klog := c.klog } ∧
      (w < 0 →
        (stpddc60_read_word_data lbits bus page phase PMBUS_READ_VOUT c).1 = w) ∧
      (0 ≤ w → w ≤ 0xFFFF →
        (stpddc60_read_word_data lbits bus page phase PMBUS_READ_VOUT c).1 =
            stpddc60_mv2l lbits (stpddc60_vid2mv w) ∧
          (stpddc60_read_word_data lbits bus page phase PMBUS_READ_VOUT c).1 =
            if w = 0 then 0 else (250 + (w - 1) * 5) * 256 / 1000) := by
  have hpage : ¬ page > 0 := by omega
  unfold stpddc60_read_word_data
  simp only [hpage, if_false, if_true, pmbus_read_word_data, hr]
  by_cases hw : w < 0
  · simp only [hw, if_true]
    refine ⟨trivial, fun _ => trivial, fun h0 _ => ?_⟩
    omega
  · simp only [hw, if_false]
    refine ⟨trivial, fun h => h.elim, fun h0 h1 => ⟨trivial, ?_⟩⟩
    by_cases hz : w = 0
    · subst hz
      rw [if_pos rfl, vid2mv_of_lt_one 0 (by decide),
        mv2l_exact lbits hl 0 (by decide) (by decide)]
      decide
    · rw [if_neg hz, vid2mv_exact w (by omega) (by omega),
        mv2l_exact lbits hl _ (by omega) (by omega)]

/-- Witness of C1 on the sample device: the raw word `3` (260 mV) reads back as
`66`. -/
theorem C1_read_vout_witness :
    (stpddc60_read_word_data 64 Sample.bus 0 0 PMBUS_READ_VOUT Sample.client).2 =
        { dev := 1, trace := [Access.read_word 0 0 PMBUS_READ_VOUT], klog := [] } ∧
      (stpddc60_read_word_data 64 Sample.bus 0 0 PMBUS_READ_VOUT Sample.client).1 = 66 := by
  have h := C1_read_vout 64 (by decide) Sample.bus 0 0 Sample.client (by decide) 3 1 rfl
  exact ⟨h.1, (h.2.2 (by decide) (by decide)).1.trans (by decide)⟩

/-- C2: status-word read of the FET-check variant (pim4006) on a page `<= 0`:
for every base status byte `b >= 0` and every result `s` of the FET-check word
read (made with phase `0xff`), the hook returns `b | 0x08` when `s > 0` and `s`
has bit `0x0010` or bit `0x0020` set, and `b` otherwise; a negative `s` leaves
`b` unchanged, and `b = 0`, `s = 0x0010` gives `0x08`. -/
theorem C2_status_word_fet_check {σ : Type} (bus : Bus σ) (page phase : Int)
    (c : Client σ) (hp : page ≤ 0) (b s : Int) (d1 d2 : σ)
    (hb : bus.read_byte_data page PMBUS_STATUS_BYTE c.dev = (b, d1))
    (hs : bus.read_word_data page 0xff PIM4328_MFR_FET_CHECKSTATUS d1 = (s, d2))
    (hb0 : 0 ≤ b) :
    pim4328_read_word_data bus chips.pim4006 page phase PMBUS_STATUS_WORD c =
        (if 0 < s ∧ (Int.land s 0x0010 ≠ 0 ∨ Int.land s 0x0020 ≠ 0)
          then Int.lor b 0x08 else b,
         { dev := d2,
           trace := c.trace ++ [Access.read_byte page PMBUS_STATUS_BYTE,
             Access.read_word page 0xff PIM4328_MFR_FET_CHECKSTATUS],
           klog := c.klog }) ∧
      (s < 0 →
        (pim4328_read_word_data bus chips.pim4006 page phase
          PMBUS_STATUS_WORD c).1 = b) ∧
      (b = 0 → s = 0x0010 →
        (pim4328_read_word_data bus chips.pim4006 page phase
          PMBUS_STATUS_WORD c).1 = 0x08) := by
  have hpage : ¬ page > 0 := by omega
  have hmask : (0 < s ∧ Int.land s 0x0030 ≠ 0) ↔
      (0 < s ∧ (Int.land s 0x0010 ≠ 0 ∨ Int.land s 0x0020 ≠ 0)) := by
    constructor
    · rintro ⟨h0, h⟩
      exact ⟨h0, (land_union_ne_zero s (le_of_lt h0) 0x10 0x20).mp h⟩
    · rintro ⟨h0, h⟩
      exact ⟨h0, (land_union_ne_zero s (le_of_lt h0) 0x10 0x20).mpr h⟩
  have hmain : pim4328_read_word_data bus chips.pim4006 page phase PMBUS_STATUS_WORD c =
      (if 0 < s ∧ (Int.land s 0x0010 ≠ 0 ∨ Int.land s 0x0020 ≠ 0)
        then Int.lor b 0x08 else b,
       { dev := d2,
         trace := c.trace ++ [Access.read_byte page PMBUS_STATUS_BYTE,
           Access.read_word page 0xff PIM4328_MFR_FET_CHECKSTATUS],
         klog := c.klog }) := by
    unfold pim4328_read_word_data
    simp only [hpage, if_false, if_true, pmbus_read_byte_data, pmbus_read_word_data,
      hb, hs, ge_iff_le, hb0, gt_iff_lt, List.append_assoc, List.singleton_append]
    by_cases h : 0 < s ∧ Int.land s 0x0030 ≠ 0
    · rw [if_pos h, if_pos (hmask.mp h)]
    · rw [if_neg h, if_neg (fun h2 => h (hmask.mpr h2))]
  refine ⟨hmain, ?_, ?_⟩
  · intro hneg
    rw [hmain]
    have : ¬ (0 < s ∧ (Int.land s 0x0010 ≠ 0 ∨ Int.land s 0x0020 ≠ 0)) := by
      rintro ⟨h0, _⟩
      omega
    simp only [this, if_false]
  · intro hbz hsz
    rw [hmain]
    subst hbz
    subst hsz
    show (if (0 : Int) < 16 ∧ (Int.land 16 16 ≠ 0 ∨ Int.land 16 32 ≠ 0)
      then Int.lor 0 8 else 0) = 8
    decide

/-- Witness of C2 on the sample device: base status `0x41`, FET-check word
`0x0010`, translated status word `0x49`. -/
theorem C2_status_word_fet_check_witness :
    pim4328_read_word_data Sample.bus chips.pim4006 0 0xff PMBUS_STATUS_WORD
        Sample.client =
      (0x49, { dev := 2,
               trace := [Access.read_byte 0 PMBUS_STATUS_BYTE,
                 Access.read_word 0 0xff PIM4328_MFR_FET_CHECKSTATUS],
               klog := [] }) :=
  (C2_status_word_fet_check Sample.bus 0 0xff Sample.client (by decide)
    0x41 0x0010 1 2 rfl rfl (by decide)).1.trans (by decide)

/-- C3: status-word read of the two byte-enriched variants on a page `<= 0`,
for every base status-byte result `b` and auxiliary status-byte result `s`:
a negative `b` is returned unchanged (no auxiliary read is made); with
`b >= 0` and `s <= 0` the result is `b`; with `b >= 0` and `s > 0` pim4328
(auxiliary register `0xd5`) returns `b | (0x08 if s & 0x04) | (0x80 if s & 0x40)`
and pim4820 (auxiliary register `0xd0`) returns
`b | (0x2001 if s & 0x05) | (0x0008 if s & 0x02) | (0x0004 if s & 0x40)`. -/
theorem C3_status_word_byte_enriched {σ : Type} (bus : Bus σ) (page phase : Int)
    (c : Client σ) (hp : page ≤ 0) (b s1 s2 : Int) (d1 d2 d3 : σ)
    (hb : bus.read_byte_data page PMBUS_STATUS_BYTE c.dev = (b, d1))
    (hs1 : bus.read_byte_data page PIM4328_MFR_STATUS_BITS d1 = (s1, d2))
    (hs2 : bus.read_byte_data page PIM4328_MFR_READ_STATUS d1 = (s2, d3)) :
    (b < 0 → ∀ id : chips,
        pim4328_read_word_data bus id page phase PMBUS_STATUS_WORD c =
          (b, { dev := d1,
                trace := c.trace ++ [Access.read_byte page PMBUS_STATUS_BYTE],
                klog := c.klog })) ∧
      (0 ≤ b → s1 ≤ 0 →
        pim4328_read_word_data bus chips.pim4328 page phase PMBUS_STATUS_WORD c =
          (b, { dev := d2,
                trace := c.trace ++ [Access.read_byte page PMBUS_STATUS_BYTE,
                  Access.read_byte page 0xd5],
                klog := c.klog })) ∧
      (0 ≤ b → s2 ≤ 0 →
        pim4328_read_word_data bus chips.pim4820 page phase PMBUS_STATUS_WORD c =
          (b, { dev := d3,
                trace := c.trace ++ [Access.read_byte page PMBUS_STATUS_BYTE,
                  Access.read_byte page 0xd0],
                klog := c.klog })) ∧
      (0 ≤ b → 0 < s1 →
        pim4328_read_word_data bus chips.pim4328 page phase PMBUS_STATUS_WORD c =
          (Int.lor (Int.lor b (if Int.land s1 0x04 ≠ 0 then 0x08 else 0))
              (if Int.land s1 0x40 ≠ 0 then 0x80 else 0),
           { dev := d2,
             trace := c.trace ++ [Access.read_byte page PMBUS_STATUS_BYTE,
               Access.read_byte page 0xd5],
             klog := c.klog })) ∧
      (0 ≤ b → 0 < s2 →
        pim4328_read_word_data bus chips.pim4820 page phase PMBUS_STATUS_WORD c =
          (Int.lor (Int.lor (Int.lor b (if Int.land s2 0x05 ≠ 0 then 0x2001 else 0))
              (if Int.land s2 0x02 ≠ 0 then 0x0008 else 0))
              (if Int.land s2 0x40 ≠ 0 then 0x0004 else 0),
           { dev := d3,
             trace := c.trace ++ [Access.read_byte page PMBUS_STATUS_BYTE,
               Access.read_byte page 0xd0],
             klog := c.klog })) := by
  have hpage : ¬ page > 0 := by omega
  have hd5 : PIM4328_MFR_STATUS_BITS = 0xd5 := rfl
  have hd0 : PIM4328_MFR_READ_STATUS = 0xd0 := rfl
  rw [hd5] at hs1
  rw [hd0] at hs2
  refine ⟨?_, ?_, ?_, ?_, ?_⟩
  · intro hneg id
    have : ¬ 0 ≤ b := by omega
    unfold pim4328_read_word_data
    simp only [hpage, if_false, if_true, pmbus_read_byte_data, hb, ge_iff_le, this]
  · intro h0 hs
    have : ¬ 0 < s1 := by omega
    unfold pim4328_read_word_data
    simp only [hpage, if_false, if_true, pmbus_read_byte_data, hb, hs1, ge_iff_le, h0,
      gt_iff_lt, this, List.append_assoc, List.singleton_append, hd5]
  · intro h0 hs
    have : ¬ 0 < s2 := by omega
    unfold pim4328_read_word_data
    simp only [hpage, if_false, if_true, pmbus_read_byte_data, hb, hs2, ge_iff_le, h0,
      gt_iff_lt, this, List.append_assoc, List.singleton_append, hd0]
  · intro h0 hs
    unfold pim4328_read_word_data
    simp only [hpage, if_false, if_true, pmbus_read_byte_data, hb, hs1, ge_iff_le, h0,
      gt_iff_lt, hs, List.append_assoc, List.singleton_append, hd5]
    rw [ite_lor b 0x08 h0,
      ite_lor _ 0x80 (lor_ite_nonneg b 0x08 h0 (by decide) _)]
  · intro h0 hs
    unfold pim4328_read_word_data
    simp only [hpage, if_false, if_true, pmbus_read_byte_data, hb, hs2, ge_iff_le, h0,
      gt_iff_lt, hs, List.append_assoc, List.singleton_append, hd0]
    rw [ite_lor b 0x2001 h0,
      ite_lor _ 0x0008 (lor_ite_nonneg b 0x2001 h0 (by decide) _),
      ite_lor _ 0x0004 (lor_ite_nonneg _ 0x0008
        (lor_ite_nonneg b 0x2001 h0 (by decide) _) (by decide) _)]

/-- Witness of C3 on the sample device: base status `0x41` and auxiliary byte
`0x46` give `0xC9` on pim4328 and `0x204D` on pim4820; on the device whose
reads all fail the error of the base read comes back after one read. -/
theorem C3_status_word_byte_enriched_witness :
    (pim4328_read_word_data Sample.bus chips.pim4328 0 0xff PMBUS_STATUS_WORD
        Sample.client).1 = 0xC9 ∧
      (pim4328_read_word_data Sample.bus chips.pim4820 0 0xff PMBUS_STATUS_WORD
        Sample.client).1 = 0x204D := by
  have h := C3_status_word_byte_enriched Sample.bus 0 0xff Sample.client
    (by decide) 0x41 0x46 0x46 1 2 2 rfl rfl rfl
  constructor
  · rw [h.2.2.2.1 (by decide) (by decide)]; decide
  · rw [h.2.2.2.2 (by decide) (by decide)]; decide

/-- C4: status-byte read on a page `<= 0`, every variant, every transport:
the byte hook leaves the client exactly as the status-word read with phase
`0xff` does, and its result is that status word masked with `0xff` when the
status word is non-negative and the status word itself when it is negative; so
a successful status byte lies in `0..255` and the byte read fails exactly when
the status-word read fails. -/
theorem C4_status_byte_masks_status_word {σ : Type} (bus : Bus σ) (id : chips)
    (page : Int) (c : Client σ) (hp : page ≤ 0) :
    (pim4328_read_byte_data bus id page PMBUS_STATUS_BYTE c).2 =
        (pim4328_read_word_data bus id page 0xff PMBUS_STATUS_WORD c).2 ∧
      (0 ≤ (pim4328_read_word_data bus id page 0xff PMBUS_STATUS_WORD c).1 →
        (pim4328_read_byte_data bus id page PMBUS_STATUS_BYTE c).1 =
          Int.land (pim4328_read_word_data bus id page 0xff PMBUS_STATUS_WORD c).1 0xff) ∧
      ((pim4328_read_word_data bus id page 0xff PMBUS_STATUS_WORD c).1 < 0 →
        (pim4328_read_byte_data bus id page PMBUS_STATUS_BYTE c).1 =
          (pim4328_read_word_data bus id page 0xff PMBUS_STATUS_WORD c).1) ∧
      (0 ≤ (pim4328_read_byte_data bus id page PMBUS_STATUS_BYTE c).1 →
        (pim4328_read_byte_data bus id page PMBUS_STATUS_BYTE c).1 ≤ 255) ∧
      ((pim4328_read_byte_data bus id page PMBUS_STATUS_BYTE c).1 < 0 ↔
        (pim4328_read_word_data bus id page 0xff PMBUS_STATUS_WORD c).1 < 0) := by
  have hpage : ¬ page > 0 := by omega
  have hbyte : pim4328_read_byte_data bus id page PMBUS_STATUS_BYTE c =
      if (pim4328_read_word_data bus id page 0xff PMBUS_STATUS_WORD c).1 > 0 then
        (Int.land (pim4328_read_word_data bus id page 0xff PMBUS_STATUS_WORD c).1 0xff,
          (pim4328_read_word_data bus id page 0xff PMBUS_STATUS_WORD c).2)
      else pim4328_read_word_data bus id page 0xff PMBUS_STATUS_WORD c := by
    unfold pim4328_read_byte_data
    simp only [hpage, if_false, if_true]
  rw [hbyte]
  generalize pim4328_read_word_data bus id page 0xff PMBUS_STATUS_WORD c = r
  obtain ⟨w, c2⟩ := r
  simp only
  have hmask : 0 ≤ w → Int.land w 0xff = w % 256 := fun h => land_low_mask w h 8
  by_cases hw : w > 0
  · have hm := hmask (le_of_lt hw)
    simp only [hw, if_true]
    refine ⟨trivial, fun _ => trivial, fun h => ?_, fun _ => ?_, ?_⟩
    · omega
    · rw [hm]; omega
    · rw [hm]; omega
  · simp only [hw, if_false]
    refine ⟨trivial, fun h => ?_, fun _ => trivial, fun h => ?_, trivial⟩
    · have : w = 0 := by omega
      subst this
      rfl
    · omega

/-- Witness of C4 on the sample device: the pim4820 status word `0x204D` reads
back as the status byte `0x4D`. -/
theorem C4_status_byte_masks_status_word_witness :
    (pim4328_read_word_data Sample.bus chips.pim4820 0 0xff PMBUS_STATUS_WORD
        Sample.client).1 = 0x204D ∧
      (pim4328_read_byte_data Sample.bus chips.pim4820 0 PMBUS_STATUS_BYTE
        Sample.client).1 = 0x4D := by
  have h := C4_status_byte_masks_status_word Sample.bus chips.pim4820 0
    Sample.client (by decide)
  exact ⟨by decide, (h.2.1 (by decide)).trans (by decide)⟩

/-- C5: status-input byte read on a page `<= 0`: on pim4820 the hook makes
exactly one transport read, of the auxiliary status byte `0xd0` (no base status
read), and returns `(0x80 if s & 0x01) | (0x10 if s & 0x02) | (0x04 if s & 0x04)`
when the result `s` is positive and `0` when `s <= 0`; so its result is never
negative and only has bits of `0x94`; on each of the other two variants it
returns `-ENXIO` without a transport read. -/
theorem C5_status_input {σ : Type} (bus : Bus σ) (page : Int) (c : Client σ)
    (hp : page ≤ 0) (s : Int) (d : σ)
    (hs : bus.read_byte_data page PIM4328_MFR_READ_STATUS c.dev = (s, d)) :
    (pim4328_read_byte_data bus chips.pim4820 page PMBUS_STATUS_INPUT c).2 =
        { dev := d, trace := c.trace ++ [Access.read_byte page 0xd0],
          klog := c.klog } ∧
      (0 < s →
        (pim4328_read_byte_data bus chips.pim4820 page PMBUS_STATUS_INPUT c).1 =
          Int.lor (Int.lor (if Int.land s 0x01 ≠ 0 then 0x80 else 0)
              (if Int.land s 0x02 ≠ 0 then 0x10 else 0))
            (if Int.land s 0x04 ≠ 0 then 0x04 else 0)) ∧
      (s ≤ 0 →
        (pim4328_read_byte_data bus chips.pim4820 page PMBUS_STATUS_INPUT c).1 = 0) ∧
      0 ≤ (pim4328_read_byte_data bus chips.pim4820 page PMBUS_STATUS_INPUT c).1 ∧
      Int.land (pim4328_read_byte_data bus chips.pim4820 page PMBUS_STATUS_INPUT c).1
          0x94 =
        (pim4328_read_byte_data bus chips.pim4820 page PMBUS_STATUS_INPUT c).1 ∧
      (∀ id : chips, id ≠ chips.pim4820 →
        pim4328_read_byte_data bus id page PMBUS_STATUS_INPUT c = (- ENXIO, c)) := by
  have hpage : ¬ page > 0 := by omega
  have hreg : ¬ PMBUS_STATUS_INPUT = PMBUS_STATUS_BYTE := by decide
  have hd0 : PIM4328_MFR_READ_STATUS = 0xd0 := rfl
  rw [hd0] at hs
  have hmain : pim4328_read_byte_data bus chips.pim4820 page PMBUS_STATUS_INPUT c =
      (if 0 < s then
          (if Int.land s 0x04 ≠ 0 then
            Int.lor (if Int.land s 0x02 ≠ 0 then
              Int.lor (if Int.land s 0x01 ≠ 0 then Int.lor 0 0x80 else 0) 0x10
              else (if Int.land s 0x01 ≠ 0 then Int.lor 0 0x80 else 0)) 0x04
          else (if Int.land s 0x02 ≠ 0 then
              Int.lor (if Int.land s 0x01 ≠ 0 then Int.lor 0 0x80 else 0) 0x10
              else (if Int.land s 0x01 ≠ 0 then Int.lor 0 0x80 else 0)))
        else 0,
       { dev := d, trace := c.trace ++ [Access.read_byte page 0xd0],
         klog := c.klog }) := by
    unfold pim4328_read_byte_data
    simp only [hpage, hreg, if_false, if_true, pmbus_read_byte_data, hd0, hs, gt_iff_lt]
    by_cases h : 0 < s
    · simp only [h, if_true]
    · simp only [h, if_false]
  refine ⟨?_, ?_, ?_, ?_, ?_, ?_⟩
  · rw [hmain]
  · intro h
    rw [hmain]
    simp only [h, if_true]
    split_ifs <;> decide
  · intro h
    rw [hmain]
    have : ¬ 0 < s := by omega
    simp only [this, if_false]
  · rw [hmain]
    simp only
    split_ifs <;> decide
  · rw [hmain]
    simp only
    split_ifs <;> decide
  · intro id hid
    unfold pim4328_read_byte_data
    simp only [hpage, hreg, hid, if_false, if_true]

/-- Witness of C5 on the sample device: the auxiliary byte `0x46` gives the
status-input byte `0x14`. -/
theorem C5_status_input_witness :
    pim4328_read_byte_data Sample.bus chips.pim4820 0 PMBUS_STATUS_INPUT
        Sample.client =
      (0x14, { dev := 1, trace := [Access.read_byte 0 0xd0], klog := [] }) := by
  have h := C5_status_input Sample.bus 0 Sample.client (by decide) 0x46 1 rfl
  exact Prod.ext ((h.2.1 (by decide)).trans (by decide)) h.1

/-- C6: word read of Read-Vin and Read-Iin on a page `<= 0`, every variant:
with the phase wildcard `0xff` the hook returns `-ENODATA` and makes no
transport read; with any other phase `p` it returns, unmodified, the result of
one transport word read made with phase `p`, from the phase-A register when
`p = 0` (`0xd3` for Vin, `0xd6` for Iin) and from the phase-B register for
every other `p` (`0xd4` for Vin, `0xd7` for Iin). -/
theorem C6_read_vin_iin {σ : Type} (bus : Bus σ) (id : chips) (page p : Int)
    (c : Client σ) (hp : page ≤ 0) :
    pim4328_read_word_data bus id page 0xff PMBUS_READ_VIN c = (- ENODATA, c) ∧
      pim4328_read_word_data bus id page 0xff PMBUS_READ_IIN c = (- ENODATA, c) ∧
      (p ≠ 0xff →
        pim4328_read_word_data bus id page p PMBUS_READ_VIN c =
          ((bus.read_word_data page p (if p = 0 then 0xd3 else 0xd4) c.dev).1,
           { dev := (bus.read_word_data page p (if p = 0 then 0xd3 else 0xd4) c.dev).2,
             trace := c.trace ++
               [Access.read_word page p (if p = 0 then 0xd3 else 0xd4)],
             klog := c.klog })) ∧
      (p ≠ 0xff →
        pim4328_read_word_data bus id page p PMBUS_READ_IIN c =
          ((bus.read_word_data page p (if p = 0 then 0xd6 else 0xd7) c.dev).1,
           { dev := (bus.read_word_data page p (if p = 0 then 0xd6 else 0xd7) c.dev).2,
             trace := c.trace ++
               [Access.read_word page p (if p = 0 then 0xd6 else 0xd7)],
             klog := c.klog })) := by
  have hpage : ¬ page > 0 := by omega
  have h1 : ¬ PMBUS_READ_VIN = PMBUS_STATUS_WORD := by decide
  have h2 : ¬ PMBUS_READ_IIN = PMBUS_STATUS_WORD := by decide
  have h3 : ¬ PMBUS_READ_IIN = PMBUS_READ_VIN := by decide
  refine ⟨?_, ?_, ?_, ?_⟩
  · unfold pim4328_read_word_data
    simp only [hpage, h1, if_false, if_true, ne_eq, not_true_eq_false]
  · unfold pim4328_read_word_data
    simp only [hpage, h2, h3, if_false, if_true, ne_eq, not_true_eq_false]
  · intro hne
    unfold pim4328_read_word_data
    simp only [hpage, h1, if_false, if_true, ne_eq, hne, not_false_eq_true,
      pmbus_read_word_data, PIM4328_MFR_READ_VINA, PIM4328_MFR_READ_VINB]
  · intro hne
    unfold pim4328_read_word_data
    simp only [hpage, h2, h3, if_false, if_true, ne_eq, hne, not_false_eq_true,
      pmbus_read_word_data, PIM4328_MFR_READ_IINA, PIM4328_MFR_READ_IINB]

/-- Witness of C6 on the device whose reads all fail: phase `1` of Read-Vin
returns the error of the read of register `0xd4` unmodified. -/
theorem C6_read_vin_iin_witness :
    pim4328_read_word_data Sample.deadBus chips.pim4328 0 1 PMBUS_READ_VIN
        Sample.client =
      (-5, { dev := 1, trace := [Access.read_word 0 1 0xd4], klog := [] }) :=
  ((C6_read_vin_iin Sample.deadBus chips.pim4328 0 1 Sample.client
    (by decide)).2.2.1 (by decide)).trans (by decide)

/-- C7: for every page `> 0`, every register, phase, written word and chip
variant, each of the five translator hooks returns `-ENXIO` and leaves the
client untouched (no transport access is made), whatever the transport would
answer. -/
theorem C7_page_above_zero {σ : Type} (lbits : Nat) (bus : Bus σ) (id : chips)
    (page phase reg word : Int) (c : Client σ) (hp : 0 < page) :
    pim4328_read_word_data bus id page phase reg c = (- ENXIO, c) ∧
      pim4328_read_byte_data bus id page reg c = (- ENXIO, c) ∧
      stpddc60_read_byte_data page reg c = (- ENXIO, c) ∧
      stpddc60_read_word_data lbits bus page phase reg c = (- ENXIO, c) ∧
      stpddc60_write_word_data page reg word c = (- ENXIO, c) := by
  have hpage : page > 0 := hp
  refine ⟨?_, ?_, ?_, ?_, ?_⟩
  · unfold pim4328_read_word_data
    rw [if_pos hpage]
  · unfold pim4328_read_byte_data
    rw [if_pos hpage]
  · unfold stpddc60_read_byte_data
    rw [if_pos hpage]
  · unfold stpddc60_read_word_data
    rw [if_pos hpage]
  · unfold stpddc60_write_word_data
    rw [if_pos hpage]

/-- Witness of C7: page `1` of the sample device, status-word register. -/
theorem C7_page_above_zero_witness :
    pim4328_read_word_data Sample.bus chips.pim4006 1 0xff PMBUS_STATUS_WORD
        Sample.client = (-6, Sample.client) ∧
      stpddc60_write_word_data 1 PMBUS_VOUT_OV_FAULT_LIMIT 0x1234 Sample.client =
        (-6, Sample.client) :=
  ⟨(C7_page_above_zero 64 Sample.bus chips.pim4006 1 0xff PMBUS_STATUS_WORD 0
      Sample.client (by decide)).1,
    (C7_page_above_zero 64 Sample.bus chips.pim4006 1 0xff
      PMBUS_VOUT_OV_FAULT_LIMIT 0x1234 Sample.client (by decide)).2.2.2.2⟩

/-- C8: regulator word write on a page `<= 0`: a write of any word to the
over-voltage or to the under-voltage fault-limit register returns `-EACCES`;
the outcome does not depend on the word; and on every path (any page, any
register) the hook leaves the device state and the transport trace as they
were: it makes no transport write. -/
theorem C8_fault_limit_write_denied {σ : Type} (page reg word : Int)
    (c : Client σ) (hp : page ≤ 0) :
    (stpddc60_write_word_data page PMBUS_VOUT_OV_FAULT_LIMIT word c).1 = - EACCES ∧
      (stpddc60_write_word_data page PMBUS_VOUT_UV_FAULT_LIMIT word c).1 = - EACCES ∧
      (∀ word2 : Int,
        stpddc60_write_word_data page reg word2 c =
          stpddc60_write_word_data page reg word c) ∧
      (∀ page2 reg2 word2 : Int,
        (stpddc60_write_word_data page2 reg2 word2 c).2.dev = c.dev ∧
          (stpddc60_write_word_data page2 reg2 word2 c).2.trace = c.trace) := by
  have hpage : ¬ page > 0 := by omega
  have huv : ¬ PMBUS_VOUT_UV_FAULT_LIMIT = PMBUS_VOUT_OV_FAULT_LIMIT := by decide
  refine ⟨?_, ?_, ?_, ?_⟩
  · unfold stpddc60_write_word_data
    simp only [hpage, if_false, if_true]
  · unfold stpddc60_write_word_data
    simp only [hpage, huv, if_false, if_true]
  · intro word2
    rfl
  · intro page2 reg2 word2
    unfold stpddc60_write_word_data dev_notice
    split_ifs <;> exact ⟨rfl, rfl⟩

/-- Witness of C8 on the sample client: writing `0x1234` to the over-voltage
limit is denied and only logs the notice. -/
theorem C8_fault_limit_write_denied_witness :
    stpddc60_write_word_data 0 PMBUS_VOUT_OV_FAULT_LIMIT 0x1234 Sample.client =
      (-13, { dev := 0, trace := [], klog := [Notice.ov_limit_readonly] }) := by
  have h := C8_fault_limit_write_denied 0 PMBUS_VOUT_OV_FAULT_LIMIT 0x1234
    Sample.client (by decide)
  exact Prod.ext (h.1.trans (by decide)) (by decide)

/-- C9: regulator word read of the over-voltage and under-voltage fault-limit
registers on a page `<= 0`, any phase: the hook makes one transport word read
of the register; a negative result is returned unchanged; otherwise the hook
returns the raw value `AND 0x07ff`, which lies in `0..2047` and agrees with
the raw value on the low 11 bits. -/
theorem C9_fault_limit_read {σ : Type} (lbits : Nat) (bus : Bus σ)
    (page phase reg : Int) (c : Client σ) (hp : page ≤ 0)
    (hreg : reg = PMBUS_VOUT_OV_FAULT_LIMIT ∨ reg = PMBUS_VOUT_UV_FAULT_LIMIT)
    (w : Int) (d : σ) (hr : bus.read_word_data page phase reg c.dev = (w, d)) :
    (stpddc60_read_word_data lbits bus page phase reg c).2 =
        { dev := d, trace := c.trace ++ [Access.read_word page phase reg],
          klog := c.klog } ∧
      (w < 0 → (stpddc60_read_word_data lbits bus page phase reg c).1 = w) ∧
      (0 ≤ w →
        (stpddc60_read_word_data lbits bus page phase reg c).1 = Int.land w 0x07ff ∧
          0 ≤ (stpddc60_read_word_data lbits bus page phase reg c).1 ∧
          (stpddc60_read_word_data lbits bus page phase reg c).1 ≤ 2047 ∧
          (stpddc60_read_word_data lbits bus page phase reg c).1 % 2 ^ 11 =
            w % 2 ^ 11) := by
  have hpage : ¬ page > 0 := by omega
  have hne : ¬ reg = PMBUS_READ_VOUT := by
    rcases hreg with h | h <;> rw [h] <;> decide
  have hmain : stpddc60_read_word_data lbits bus page phase reg c =
      (if w < 0 then w else Int.land w 0x07ff,
       { dev := d, trace := c.trace ++ [Access.read_word page phase reg],
         klog := c.klog }) := by
    unfold stpddc60_read_word_data
    simp only [hpage, hne, hreg, if_false, if_true, pmbus_read_word_data, hr]
    by_cases hw : w < 0
    · simp only [hw, if_true]
    · simp only [hw, if_false]
  rw [hmain]
  refine ⟨rfl, fun hw => ?_, fun hw => ?_⟩
  · simp only [hw, if_true]
  · have hneg : ¬ w < 0 := by omega
    have hm : Int.land w 0x07ff = w % 2 ^ 11 := land_low_mask w hw 11
    simp only [hneg, if_false]
    rw [hm]
    refine ⟨trivial, ?_, ?_, ?_⟩
    · omega
    · omega
    · omega

/-- Witness of C9: on the device whose reads all fail the error comes back
unchanged; on the sample device the raw word `0xC803` is cut to `0x003`. -/
theorem C9_fault_limit_read_witness :
    (stpddc60_read_word_data 64 Sample.deadBus 0 0xff PMBUS_VOUT_OV_FAULT_LIMIT
        Sample.client).1 = -5 ∧
      (stpddc60_read_word_data 64 Sample.bus 0 0xff PMBUS_VOUT_UV_FAULT_LIMIT
        Sample.client).1 = 3 :=
  ⟨(C9_fault_limit_read 64 Sample.deadBus 0 0xff PMBUS_VOUT_OV_FAULT_LIMIT
      Sample.client (by decide) (Or.inl rfl) (-5) 1 rfl).2.1 (by decide),
    ((C9_fault_limit_read 64 Sample.bus 0 0xff PMBUS_VOUT_UV_FAULT_LIMIT
      Sample.client (by decide) (Or.inr rfl) 0xC803 1 rfl).2.2 (by decide)).1.trans
      (by decide)⟩

/-- C10, the claim as stated fails: the code `429496681` is a value of `int`,
yet `250 + (val - 1) * 5` leaves the range of `int` there and the function
returns `-2147483646` instead of `2147483650`, below its value at
`429496680`. -/
theorem C10_vid2mv_counterexample :
    (1 : Int) ≤ 429496681 ∧ (429496681 : Int) < 2 ^ 31 ∧
      stpddc60_vid2mv 429496681 = -2147483646 ∧
      stpddc60_vid2mv 429496681 ≠ 250 + (429496681 - 1) * 5 ∧
      ¬ stpddc60_vid2mv 429496680 ≤ stpddc60_vid2mv 429496681 := by
  decide

/-- C10, amended: `stpddc60_vid2mv` returns 0 for code 0, maps 1 to 250 and 2
to 255, returns exactly `250 + (n-1)*5` for every code `1 <= n <= 429496680`,
and is monotonic non-decreasing on the codes up to `429496680`. -/
theorem C10_vid2mv_amended (a b : Int) (hab : a ≤ b) (hb : b ≤ 429496680) :
    stpddc60_vid2mv 0 = 0 ∧ stpddc60_vid2mv 1 = 250 ∧ stpddc60_vid2mv 2 = 255 ∧
      (1 ≤ b → stpddc60_vid2mv b = 250 + (b - 1) * 5) ∧
      stpddc60_vid2mv a ≤ stpddc60_vid2mv b := by
  refine ⟨by decide, by decide, by decide, fun h => vid2mv_exact b h hb, ?_⟩
  by_cases ha : 1 ≤ a
  · rw [vid2mv_exact a ha (by omega), vid2mv_exact b (by omega) hb]
    omega
  · rw [vid2mv_of_lt_one a (by omega)]
    by_cases hb1 : 1 ≤ b
    · rw [vid2mv_exact b hb1 hb]
      omega
    · rw [vid2mv_of_lt_one b (by omega)]

/-- Witness of the amended C10 at the codes 1 and 2. -/
theorem C10_vid2mv_amended_witness :
    stpddc60_vid2mv 2 = 250 + (2 - 1) * 5 ∧
      stpddc60_vid2mv 1 ≤ stpddc60_vid2mv 2 :=
  ⟨(C10_vid2mv_amended 1 2 (by decide) (by decide)).2.2.2.1 (by decide),
    (C10_vid2mv_amended 1 2 (by decide) (by decide)).2.2.2.2⟩

/-! ## Further lemmas on the regulator's conversions -/

namespace Stpddc60

open Pmbus

/-- With a `long` of at least 64 bits the conversion is the exact floor of
`mv * 256 / 1000` as long as the quotient fits the `int` result. -/
theorem mv2l_exact_wide (lbits : Nat) (hl : 64 ≤ lbits) (mv : Int) (h0 : 0 ≤ mv)
    (h1 : mv < 8388608000) : stpddc60_mv2l lbits mv = mv * 256 / 1000 := by
  unfold stpddc60_mv2l
  have hmono : (2 : Int) ^ 63 ≤ 2 ^ (lbits - 1) :=
    pow_le_pow_right₀ (by norm_num) (by omega)
  have h63 : (2 : Int) ^ 63 = 9223372036854775808 := by norm_num
  have e1 : wrap lbits (mv * 2 ^ 8) = mv * 256 := by
    rw [wrap_eq_self lbits (by omega) _ (by norm_num; omega) (by norm_num; omega)]
    norm_num
  rw [e1, Int.tdiv_eq_ediv (by omega) (by norm_num)]
  have hq0 : 0 ≤ mv * 256 / 1000 := Int.ediv_nonneg (by omega) (by norm_num)
  have hq1 : mv * 256 / 1000 < 2147483648 := by omega
  exact wrap_eq_self_of_int 32 (le_refl _) _ (by norm_num; omega) (by norm_num; omega)

/-- The value the regulator's word hook returns for a raw Read-Vout word in
`0..0xFFFF`. -/
theorem read_vout_value {σ : Type} (lbits : Nat) (hl : 32 ≤ lbits) (bus : Bus σ)
    (page phase : Int) (c : Client σ) (hp : page ≤ 0) (w : Int) (d : σ)
    (hr : bus.read_word_data page phase PMBUS_READ_VOUT c.dev = (w, d))
    (h0 : 0 ≤ w) (h1 : w ≤ 0xFFFF) :
    (stpddc60_read_word_data lbits bus page phase PMBUS_READ_VOUT c).1 =
      if w = 0 then 0 else (250 + (w - 1) * 5) * 256 / 1000 := by
  have hpage : ¬ page > 0 := by omega
  have hw : ¬ w < 0 := by omega
  unfold stpddc60_read_word_data
  simp only [hpage, if_false, if_true, pmbus_read_word_data, hr, hw]
  by_cases hz : w = 0
  · subst hz
    rw [if_pos rfl, vid2mv_of_lt_one 0 (by decide),
      mv2l_exact lbits hl 0 (by decide) (by decide)]
    decide
  · rw [if_neg hz, vid2mv_exact w (by omega) (by omega),
      mv2l_exact lbits hl _ (by omega) (by omega)]

end Stpddc60

/-! ## The claims, continued -/

/-- C11, the claim as stated fails: with a 64-bit `long` the non-negative
value `8388608000` converts to `-2147483648` (the quotient `2^31` does not fit
the `int` result), and with a 32-bit `long` the value `8388608` converts to
`-2147483` (the shift `mv << 8` wraps). -/
theorem C11_mv2l_counterexample :
    (0 : Int) ≤ 8388608000 ∧ (8388608000 : Int) < 2 ^ 63 ∧
      stpddc60_mv2l 64 8388608000 = -2147483648 ∧
      stpddc60_mv2l 64 8388608000 ≠ 8388608000 * 256 / 1000 ∧
      (8388608 : Int) < 2 ^ 31 ∧
      stpddc60_mv2l 32 8388608 = -2147483 ∧
      stpddc60_mv2l 32 8388608 ≠ 8388608 * 256 / 1000 := by
  decide

/-- C11, amended: `stpddc60_mv2l` returns `floor(mv * 256 / 1000)` for every
non-negative `mv` below `8388608` and, with a `long` of at least 64 bits, for
every non-negative `mv` below `8388608000`; in particular it maps 0 to 0 and
1000 to 256. -/
theorem C11_mv2l_amended (lbits : Nat) (hl : 32 ≤ lbits) (mv : Int) (h0 : 0 ≤ mv)
    (h1 : mv < 8388608 ∨ (64 ≤ lbits ∧ mv < 8388608000)) :
    stpddc60_mv2l lbits mv = mv * 256 / 1000 ∧
      stpddc60_mv2l lbits 0 = 0 ∧ stpddc60_mv2l lbits 1000 = 256 := by
  refine ⟨?_, ?_, ?_⟩
  · rcases h1 with h | ⟨h64, h⟩
    · exact mv2l_exact lbits hl mv h0 h
    · exact mv2l_exact_wide lbits h64 mv h0 h
  · rw [mv2l_exact lbits hl 0 (by decide) (by decide)]
    decide
  · rw [mv2l_exact lbits hl 1000 (by decide) (by decide)]
    decide

/-- Witness of the amended C11: 327920 mV, the largest value the hook feeds
in, converts to 83947 with a 64-bit `long`. -/
theorem C11_mv2l_amended_witness : stpddc60_mv2l 64 327920 = 83947 :=
  (C11_mv2l_amended 64 (by decide) 327920 (by decide) (Or.inl (by decide))).1.trans
    (by decide)

/-- C12: regulator byte read of the Vout-mode register: on every page `<= 0`
the hook returns exactly `0x18` and leaves the client untouched; it consults no
transport, so the value is the same for every client state and on every
repeated call. -/
theorem C12_vout_mode_fixed {σ τ : Type} (page : Int) (c : Client σ)
    (c2 : Client τ) (hp : page ≤ 0) :
    stpddc60_read_byte_data page PMBUS_VOUT_MODE c = (0x18, c) ∧
      (stpddc60_read_byte_data page PMBUS_VOUT_MODE c2).1 =
        (stpddc60_read_byte_data page PMBUS_VOUT_MODE c).1 ∧
      stpddc60_read_byte_data page PMBUS_VOUT_MODE
          (stpddc60_read_byte_data page PMBUS_VOUT_MODE c).2 = (0x18, c) := by
  have hpage : ¬ page > 0 := by omega
  have h : ∀ {ρ : Type} (x : Client ρ),
      stpddc60_read_byte_data page PMBUS_VOUT_MODE x = (0x18, x) := by
    intro ρ x
    unfold stpddc60_read_byte_data
    simp only [hpage, if_false, if_true]
  refine ⟨h c, ?_, ?_⟩
  · rw [h c, h c2]
  · rw [h c, h c]

/-- Witness of C12 on the sample client, page 0. -/
theorem C12_vout_mode_fixed_witness :
    stpddc60_read_byte_data 0 PMBUS_VOUT_MODE Sample.client = (0x18, Sample.client) :=
  (C12_vout_mode_fixed 0 Sample.client Sample.client (by decide)).1

/-- C13: on a page `<= 0` every register the translators do not handle yields
`-ENODATA` with the client untouched (no transport access), for every variant
and every transport: the multi-phase word read for a register other than
status word, Read-Vin and Read-Iin; the multi-phase byte read for a register
other than status byte and status-input; the regulator byte read for a
register other than Vout mode; the regulator word read for a register other
than Read-Vout and the two Vout fault limits; the regulator word write for a
register other than the two Vout fault limits. `-ENODATA` differs from
`-ENXIO`. -/
theorem C13_unhandled_register_no_data {σ : Type} (lbits : Nat) (bus : Bus σ)
    (id : chips) (page phase reg word : Int) (c : Client σ) (hp : page ≤ 0) :
    (reg ≠ PMBUS_STATUS_WORD → reg ≠ PMBUS_READ_VIN → reg ≠ PMBUS_READ_IIN →
        pim4328_read_word_data bus id page phase reg c = (- ENODATA, c)) ∧
      (reg ≠ PMBUS_STATUS_BYTE → reg ≠ PMBUS_STATUS_INPUT →
        pim4328_read_byte_data bus id page reg c = (- ENODATA, c)) ∧
      (reg ≠ PMBUS_VOUT_MODE →
        stpddc60_read_byte_data page reg c = (- ENODATA, c)) ∧
      (reg ≠ PMBUS_READ_VOUT → reg ≠ PMBUS_VOUT_OV_FAULT_LIMIT →
        reg ≠ PMBUS_VOUT_UV_FAULT_LIMIT →
        stpddc60_read_word_data lbits bus page phase reg c = (- ENODATA, c)) ∧
      (reg ≠ PMBUS_VOUT_OV_FAULT_LIMIT → reg ≠ PMBUS_VOUT_UV_FAULT_LIMIT →
        stpddc60_write_word_data page reg word c = (- ENODATA, c)) ∧
      - ENODATA ≠ - ENXIO := by
  have hpage : ¬ page > 0 := by omega
  refine ⟨?_, ?_, ?_, ?_, ?_, by decide⟩
  · intro h1 h2 h3
    unfold pim4328_read_word_data
    simp only [hpage, h1, h2, h3, if_false]
  · intro h1 h2
    unfold pim4328_read_byte_data
    simp only [hpage, h1, h2, if_false]
  · intro h1
    unfold stpddc60_read_byte_data
    simp only [hpage, h1, if_false]
  · intro h1 h2 h3
    unfold stpddc60_read_word_data
    simp only [hpage, h1, h2, h3, or_self, if_false]
  · intro h1 h2
    unfold stpddc60_write_word_data
    simp only [hpage, h1, h2, if_false]

/-- Witness of C13: register `0x8D` (temperature) on page 0 of the sample
device is answered with `-ENODATA` by the multi-phase word hook. -/
theorem C13_unhandled_register_no_data_witness :
    pim4328_read_word_data Sample.bus chips.pim4328 0 0xff 0x8D Sample.client =
      (-61, Sample.client) :=
  (C13_unhandled_register_no_data 64 Sample.bus chips.pim4328 0 0xff 0x8D 0
    Sample.client (by decide)).1 (by decide) (by decide) (by decide)


/-! ## Lemmas on the table scan -/

namespace Pmbus

/-- Distinct characters have distinct codes. -/
theorem char_code_sub_ne_zero (a b : Char) (h : a ≠ b) :
    (a.toNat : Int) - (b.toNat : Int) ≠ 0 := by
  intro h0
  apply h
  have h1 : a.toNat = b.toNat := by omega
  exact Char.ext (UInt32.ext h1)

/-- A name without NUL characters is as long as `strlen` says. -/
theorem strlen_eq_length (name : List Char) (hn : ∀ ch ∈ name, ch ≠ NUL) :
    strlen name = name.length := by
  unfold strlen
  have h : name.takeWhile (fun ch => ch != NUL) = name := by
    rw [List.takeWhile_eq_self_iff]
    intro x hx
    simpa using hn x hx
  rw [h]

/-- The comparison `strncasecmp(name, s, strlen(name))` is zero exactly when
`name` is a case-insensitive prefix of the string held in `s`. -/
theorem strncasecmp_eq_zero_iff (name : List Char) (hn : ∀ ch ∈ name, ch ≠ NUL)
    (s : List Char) :
    strncasecmp name s name.length = 0 ↔ starts_with_nocase s name := by
  unfold starts_with_nocase c_string
  induction name generalizing s with
  | nil => simp [strncasecmp]
  | cons a as ih =>
    have ha : a ≠ NUL := hn a (List.mem_cons_self a as)
    have has : ∀ ch ∈ as, ch ≠ NUL := fun ch hch => hn ch (List.mem_cons_of_mem a hch)
    cases s with
    | nil =>
      have hne := char_code_sub_ne_zero a NUL ha
      simp [strncasecmp, hne]
    | cons b bs =>
      by_cases hb : b = NUL
      · subst hb
        have hne := char_code_sub_ne_zero a NUL ha
        simp [strncasecmp, hne]
      · by_cases hab : a = b
        · subst hab
          simp [strncasecmp, ha, List.takeWhile_cons, List.cons_prefix_cons, ih has bs]
        · by_cases hl : tolower a = tolower b
          · simp [strncasecmp, ha, hb, hab, hl, List.takeWhile_cons,
              List.cons_prefix_cons, ih has bs]
          · have hne := char_code_sub_ne_zero _ _ hl
            simp [strncasecmp, ha, hb, hab, hl, hne, List.takeWhile_cons,
              List.cons_prefix_cons]

/-- On a list where at most one element satisfies `p`, the first match does
not depend on the order of the list. -/
theorem find_perm_of_unique {α : Type} (p : α → Bool) (l l2 : List α)
    (hperm : l2.Perm l)
    (huniq : ∀ a ∈ l, ∀ b ∈ l, p a = true → p b = true → a = b) :
    l2.find? p = l.find? p := by
  cases h : l.find? p with
  | none =>
    rw [List.find?_eq_none] at h ⊢
    intro x hx
    exact h x (hperm.mem_iff.mp hx)
  | some a =>
    have hal : a ∈ l := List.mem_of_find?_eq_some h
    have hpa : p a = true := List.find?_some h
    cases h2 : l2.find? p with
    | none =>
      rw [List.find?_eq_none] at h2
      exact absurd hpa (h2 a (hperm.mem_iff.mpr hal))
    | some b =>
      have hbl : b ∈ l := hperm.mem_iff.mp (List.mem_of_find?_eq_some h2)
      have hpb : p b = true := List.find?_some h2
      rw [huniq b hbl a hal hpb hpa]

/-- Two predicates that agree on a list find the same first match. -/
theorem find_congr_on {α : Type} (p q : α → Bool) (l : List α)
    (h : ∀ a ∈ l, p a = q a) : l.find? p = l.find? q := by
  induction l with
  | nil => rfl
  | cons a as ih =>
    have ha := h a (List.mem_cons_self a as)
    have has : ∀ x ∈ as, p x = q x := fun x hx => h x (List.mem_cons_of_mem a hx)
    simp only [List.find?_cons, ha, ih has]

/-- The scan of a table of NUL-free names finds the first entry whose name is a
case-insensitive prefix of the model string. -/
theorem scan_eq_find {α : Type} (table : List (i2c_device_id α))
    (hn : ∀ e ∈ table, ∀ ch ∈ e.name, ch ≠ NUL) (s : List Char) :
    scan_id_table table s =
      table.find? (fun e => decide (starts_with_nocase s e.name)) := by
  unfold scan_id_table
  apply find_congr_on
  intro e he
  rw [strlen_eq_length e.name (hn e he)]
  have h := strncasecmp_eq_zero_iff e.name (hn e he) s
  by_cases hs : starts_with_nocase s e.name
  · simp [hs, h.mpr hs]
  · have : strncasecmp e.name s e.name.length ≠ 0 := fun h0 => hs (h.mp h0)
    simp [hs, this]

end Pmbus

/-- C14: chip identity resolution, the table scan of `pim4328_probe` over
`pim4328_id`: for every model string `s` the scan yields the first table entry
whose name is an ASCII case-insensitive prefix of `s`, and nothing
(`UnsupportedDevice`) when no entry's name is such a prefix; `pim4206XYZ`
resolves to the variant of `pim4206`, `PIM4328` resolves as `pim4328` does,
`unknown-chip` is unsupported; at most one entry matches any `s`, so every
reordering `table` of `pim4328_id` resolves `s` to the same entry. -/
theorem C14_identity_resolution (s : List Char)
    (table : List (i2c_device_id chips)) (hperm : table.Perm pim4328_id) :
    scan_id_table pim4328_id s =
        pim4328_id.find? (fun e => decide (starts_with_nocase s e.name)) ∧
      ((∀ e ∈ pim4328_id, ¬ starts_with_nocase s e.name) →
        scan_id_table pim4328_id s = none) ∧
      (scan_id_table pim4328_id "pim4206XYZ".toList).map (fun e => e.driver_data) =
        (pim4328_id.find? (fun e => e.name = "pim4206".toList)).map
          (fun e => e.driver_data) ∧
      (scan_id_table pim4328_id "PIM4328".toList).map (fun e => e.driver_data) =
        (scan_id_table pim4328_id "pim4328".toList).map (fun e => e.driver_data) ∧
      (scan_id_table pim4328_id "PIM4328".toList).map (fun e => e.driver_data) =
        some chips.pim4328 ∧
      scan_id_table pim4328_id "unknown-chip".toList = none ∧
      (∀ e1 ∈ pim4328_id, ∀ e2 ∈ pim4328_id,
        e1.name.map tolower <+: e2.name.map tolower → e1 = e2) ∧
      (∀ e1 ∈ pim4328_id, ∀ e2 ∈ pim4328_id,
        starts_with_nocase s e1.name → starts_with_nocase s e2.name → e1 = e2) ∧
      scan_id_table table s = scan_id_table pim4328_id s := by
  have hnul : ∀ e ∈ pim4328_id, ∀ ch ∈ e.name, ch ≠ NUL := by decide
  have hnul2 : ∀ e ∈ table, ∀ ch ∈ e.name, ch ≠ NUL :=
    fun e he => hnul e (hperm.mem_iff.mp he)
  have hfind := scan_eq_find pim4328_id hnul s
  have hpair : ∀ e1 ∈ pim4328_id, ∀ e2 ∈ pim4328_id,
      e1.name.map tolower <+: e2.name.map tolower → e1 = e2 := by decide
  have huniq : ∀ e1 ∈ pim4328_id, ∀ e2 ∈ pim4328_id,
      starts_with_nocase s e1.name → starts_with_nocase s e2.name → e1 = e2 := by
    intro e1 h1 e2 h2 m1 m2
    unfold starts_with_nocase at m1 m2
    by_cases hlen : (e1.name.map tolower).length ≤ (e2.name.map tolower).length
    · exact hpair e1 h1 e2 h2 (List.prefix_of_prefix_length_le m1 m2 hlen)
    · exact (hpair e2 h2 e1 h1
        (List.prefix_of_prefix_length_le m2 m1 (by omega))).symm
  refine ⟨hfind, ?_, by decide, by decide, by decide, by decide, hpair, huniq, ?_⟩
  · intro hnone
    rw [hfind, List.find?_eq_none]
    intro e he
    simpa using hnone e he
  · rw [hfind, scan_eq_find table hnul2 s]
    apply find_perm_of_unique _ _ _ hperm
    intro a ha b hb pa pb
    exact huniq a ha b hb (by simpa using pa) (by simpa using pb)

/-- Witness of C14: the reversed table resolves `pim4206XYZ` to the same entry
as `pim4328_id` does. -/
theorem C14_identity_resolution_witness :
    scan_id_table pim4328_id.reverse "pim4206XYZ".toList =
      scan_id_table pim4328_id "pim4206XYZ".toList :=
  (C14_identity_resolution "pim4206XYZ".toList pim4328_id.reverse
    (List.reverse_perm _)).2.2.2.2.2.2.2.2

/-! ## Lemmas on the multi-phase probe -/

namespace Pim4328

open Pmbus

/-- A coefficient block aborts the probe exactly when its capability flag is
set and the fetch fails. -/
theorem fetch_abort_iff (host : Host) (info : pmbus_driver_info) (flag : Nat)
    (cls : pmbus_sensor_classes) (reg : Int) (l : ProbeLog) :
    (fetch_coefficients host info flag cls reg l).1 = true ↔
      (info.func 0 &&& flag ≠ 0 ∧ host.read_coefficients cls reg < 0) := by
  unfold fetch_coefficients
  by_cases h1 : info.func 0 &&& flag ≠ 0
  · by_cases h2 : host.read_coefficients cls reg < 0
    · simp [h1, h2]
    · simp [h1, h2]
  · simp [h1]

/-- The calls after a coefficient block: those before it, and the fetch when
the capability flag is set. -/
theorem fetch_calls (host : Host) (info : pmbus_driver_info) (flag : Nat)
    (cls : pmbus_sensor_classes) (reg : Int) (l : ProbeLog) :
    (fetch_coefficients host info flag cls reg l).2.calls =
      l.calls ++ (if info.func 0 &&& flag ≠ 0 then [Call.read_coefficients cls reg]
        else []) := by
  unfold fetch_coefficients
  by_cases h1 : info.func 0 &&& flag ≠ 0
  · by_cases h2 : host.read_coefficients cls reg < 0
    · simp [h1, h2, ProbeLog.call, ProbeLog.msg]
    · simp [h1, h2, ProbeLog.call]
  · simp [h1]

/-- Some coefficient request of the probe is enabled by the descriptor and
fails on the host. -/
theorem fetch_fails_iff (host : Host) (info : pmbus_driver_info) :
    (∃ t ∈ coefficient_requests,
        info.func 0 &&& t.1 ≠ 0 ∧ host.read_coefficients t.2.1 t.2.2 < 0) ↔
      ((info.func 0 &&& PMBUS_HAVE_VCAP ≠ 0 ∧
          host.read_coefficients pmbus_sensor_classes.PSC_VOLTAGE_OUT PMBUS_READ_VCAP < 0) ∨
        (info.func 0 &&& PMBUS_HAVE_VIN ≠ 0 ∧
          host.read_coefficients pmbus_sensor_classes.PSC_VOLTAGE_IN PMBUS_READ_VIN < 0) ∨
        (info.func 0 &&& PMBUS_HAVE_IIN ≠ 0 ∧
          host.read_coefficients pmbus_sensor_classes.PSC_CURRENT_IN PMBUS_READ_IIN < 0) ∨
        (info.func 0 &&& PMBUS_HAVE_IOUT ≠ 0 ∧
          host.read_coefficients pmbus_sensor_classes.PSC_CURRENT_OUT PMBUS_READ_IOUT < 0) ∨
        (info.func 0 &&& PMBUS_HAVE_TEMP ≠ 0 ∧
          host.read_coefficients pmbus_sensor_classes.PSC_TEMPERATURE
            PMBUS_READ_TEMPERATURE_1 < 0)) := by
  simp [coefficient_requests]

/-- The return value and the bound descriptor of the part of the probe after
the `switch`, case by case. -/
theorem fetch_and_bind_result (host : Host) (data : pim4328_data) (l : ProbeLog) :
    (data.info.format pmbus_sensor_classes.PSC_VOLTAGE_IN ≠ pmbus_data_format.direct →
        (fetch_and_bind host data l).ret = host.do_probe data.info ∧
          (fetch_and_bind host data l).bound = some data) ∧
      (data.info.format pmbus_sensor_classes.PSC_VOLTAGE_IN = pmbus_data_format.direct →
        i2c_check_functionality host I2C_FUNC_SMBUS_BLOCK_PROC_CALL = false →
        (fetch_and_bind host data l).ret = - ENODEV ∧
          (fetch_and_bind host data l).bound = none) ∧
      (data.info.format pmbus_sensor_classes.PSC_VOLTAGE_IN = pmbus_data_format.direct →
        i2c_check_functionality host I2C_FUNC_SMBUS_BLOCK_PROC_CALL = true →
        (∃ t ∈ coefficient_requests,
          data.info.func 0 &&& t.1 ≠ 0 ∧ host.read_coefficients t.2.1 t.2.2 < 0) →
        (fetch_and_bind host data l).ret = - ENODEV ∧
          (fetch_and_bind host data l).bound = none) ∧
      (data.info.format pmbus_sensor_classes.PSC_VOLTAGE_IN = pmbus_data_format.direct →
        i2c_check_functionality host I2C_FUNC_SMBUS_BLOCK_PROC_CALL = true →
        (¬ ∃ t ∈ coefficient_requests,
          data.info.func 0 &&& t.1 ≠ 0 ∧ host.read_coefficients t.2.1 t.2.2 < 0) →
        (fetch_and_bind host data l).ret = host.do_probe data.info ∧
          (fetch_and_bind host data l).bound = some data) := by
  rw [fetch_fails_iff]
  refine ⟨?_, ?_, ?_, ?_⟩
  · intro hf
    unfold fetch_and_bind
    simp [hf, bind]
  · intro hf hc
    unfold fetch_and_bind
    simp [hf, hc, abort]
  · intro hf hc hfail
    unfold fetch_and_bind
    simp only [hf, hc, if_true, fetch_abort_iff, not_true_eq_false, if_false]
    split_ifs with h2 h3 h4 h5 h6
    · exact ⟨rfl, rfl⟩
    · exact ⟨rfl, rfl⟩
    · exact ⟨rfl, rfl⟩
    · exact ⟨rfl, rfl⟩
    · exact ⟨rfl, rfl⟩
    · exfalso
      tauto
  · intro hf hc hfail
    unfold fetch_and_bind
    simp only [hf, hc, if_true, fetch_abort_iff, not_true_eq_false, if_false]
    split_ifs with h2 h3 h4 h5 h6
    · exact absurd (Or.inl h2) hfail
    · exact absurd (Or.inr (Or.inl h3)) hfail
    · exact absurd (Or.inr (Or.inr (Or.inl h4))) hfail
    · exact absurd (Or.inr (Or.inr (Or.inr (Or.inl h5)))) hfail
    · exact absurd (Or.inr (Or.inr (Or.inr (Or.inr h6)))) hfail
    · exact ⟨rfl, rfl⟩

end Pim4328

namespace Pim4328

open Pmbus

/-- The return value and the bound descriptor of the part of the probe after
the `switch` do not depend on the log it starts from. -/
theorem fetch_and_bind_log_irrelevant (host : Host) (data : pim4328_data)
    (l l2 : ProbeLog) :
    (fetch_and_bind host data l).ret = (fetch_and_bind host data l2).ret ∧
      (fetch_and_bind host data l).bound = (fetch_and_bind host data l2).bound := by
  have h1 := fetch_and_bind_result host data l
  have h2 := fetch_and_bind_result host data l2
  by_cases hf : data.info.format pmbus_sensor_classes.PSC_VOLTAGE_IN =
      pmbus_data_format.direct
  · cases hc : i2c_check_functionality host I2C_FUNC_SMBUS_BLOCK_PROC_CALL
    · obtain ⟨a1, a2⟩ := h1.2.1 hf hc
      obtain ⟨b1, b2⟩ := h2.2.1 hf hc
      exact ⟨a1.trans b1.symm, a2.trans b2.symm⟩
    · by_cases hfail : ∃ t ∈ coefficient_requests,
          data.info.func 0 &&& t.1 ≠ 0 ∧ host.read_coefficients t.2.1 t.2.2 < 0
      · obtain ⟨a1, a2⟩ := h1.2.2.1 hf hc hfail
        obtain ⟨b1, b2⟩ := h2.2.2.1 hf hc hfail
        exact ⟨a1.trans b1.symm, a2.trans b2.symm⟩
      · obtain ⟨a1, a2⟩ := h1.2.2.2 hf hc hfail
        obtain ⟨b1, b2⟩ := h2.2.2.2 hf hc hfail
        exact ⟨a1.trans b1.symm, a2.trans b2.symm⟩
  · obtain ⟨a1, a2⟩ := h1.1 hf
    obtain ⟨b1, b2⟩ := h2.1 hf
    exact ⟨a1.trans b1.symm, a2.trans b2.symm⟩

/-- When the part of the probe after the `switch` binds, it binds the
descriptor it was given and returns the result of the generic bind. -/
theorem fetch_and_bind_bound (host : Host) (data d : pim4328_data) (l : ProbeLog)
    (hb : (fetch_and_bind host data l).bound = some d) :
    d = data ∧ (fetch_and_bind host data l).ret = host.do_probe data.info := by
  have h1 := fetch_and_bind_result host data l
  by_cases hf : data.info.format pmbus_sensor_classes.PSC_VOLTAGE_IN =
      pmbus_data_format.direct
  · cases hc : i2c_check_functionality host I2C_FUNC_SMBUS_BLOCK_PROC_CALL
    · obtain ⟨_, a2⟩ := h1.2.1 hf hc
      rw [a2] at hb
      exact absurd hb (by simp)
    · by_cases hfail : ∃ t ∈ coefficient_requests,
          data.info.func 0 &&& t.1 ≠ 0 ∧ host.read_coefficients t.2.1 t.2.2 < 0
      · obtain ⟨_, a2⟩ := h1.2.2.1 hf hc hfail
        rw [a2] at hb
        exact absurd hb (by simp)
      · obtain ⟨a1, a2⟩ := h1.2.2.2 hf hc hfail
        rw [a2] at hb
        exact ⟨(Option.some.inj hb).symm, a1⟩
  · obtain ⟨a1, a2⟩ := h1.1 hf
    rw [a2] at hb
    exact ⟨(Option.some.inj hb).symm, a1⟩

/-- The calls made by the part of the probe after the `switch` depend only on
the calls made before it. -/
theorem fetch_and_bind_calls (host : Host) (data : pim4328_data) (l l2 : ProbeLog)
    (hl : l.calls = l2.calls) :
    (fetch_and_bind host data l).log.calls =
      (fetch_and_bind host data l2).log.calls := by
  unfold fetch_and_bind
  simp only [fetch_abort_iff]
  split_ifs <;> simp [abort, bind, fetch_calls, ProbeLog.call, hl]

/-- The part of the probe after the `switch` calls the generic bind only when
it binds. -/
theorem fetch_and_bind_no_bind (host : Host) (data : pim4328_data) (l : ProbeLog)
    (hl : Call.do_probe ∉ l.calls)
    (hb : (fetch_and_bind host data l).bound = none) :
    Call.do_probe ∉ (fetch_and_bind host data l).log.calls := by
  revert hb
  unfold fetch_and_bind
  simp only [fetch_abort_iff]
  split_ifs <;> simp [abort, bind, fetch_calls, ProbeLog.call, hl]

end Pim4328

namespace Pim4328

open Pmbus

/-- Once the capability check, the allocation, the block read and the table
scan have succeeded, the probe is the part after the `switch`, run on the
descriptor built for the detected variant after three collaborator calls. -/
theorem probe_after_scan (host : Host) (id mid : i2c_device_id chips)
    (h1 : i2c_check_functionality host
      (I2C_FUNC_SMBUS_READ_BYTE_DATA ||| I2C_FUNC_SMBUS_BLOCK_DATA) = true)
    (h2 : host.kzalloc_ok = true)
    (h3 : 0 ≤ (host.read_block_data PMBUS_MFR_MODEL).1)
    (h4 : scan_id_table pim4328_id (host.read_block_data PMBUS_MFR_MODEL).2 = some mid) :
    ∃ l : ProbeLog,
      pim4328_probe host id = fetch_and_bind host (build_data mid.driver_data) l ∧
        l.calls = [Call.check_functionality
          (I2C_FUNC_SMBUS_READ_BYTE_DATA ||| I2C_FUNC_SMBUS_BLOCK_DATA),
          Call.kzalloc, Call.read_block_data PMBUS_MFR_MODEL] := by
  have h3n : ¬ (host.read_block_data PMBUS_MFR_MODEL).1 < 0 := by omega
  unfold pim4328_probe
  simp only [h1, h2, h3n, h4, not_true_eq_false, if_false]
  refine ⟨_, rfl, ?_⟩
  split_ifs <;> rfl

/-- A probe that binds has passed every earlier step, binds the descriptor
built for the detected variant and returns the result of the generic bind. -/
theorem probe_bound (host : Host) (id : i2c_device_id chips) (d : pim4328_data)
    (hb : (pim4328_probe host id).bound = some d) :
    ∃ mid : i2c_device_id chips,
      i2c_check_functionality host
          (I2C_FUNC_SMBUS_READ_BYTE_DATA ||| I2C_FUNC_SMBUS_BLOCK_DATA) = true ∧
        host.kzalloc_ok = true ∧
        0 ≤ (host.read_block_data PMBUS_MFR_MODEL).1 ∧
        scan_id_table pim4328_id (host.read_block_data PMBUS_MFR_MODEL).2 = some mid ∧
        d = build_data mid.driver_data ∧
        (pim4328_probe host id).ret = host.do_probe d.info := by
  cases h1 : i2c_check_functionality host
      (I2C_FUNC_SMBUS_READ_BYTE_DATA ||| I2C_FUNC_SMBUS_BLOCK_DATA)
  · exfalso
    revert hb
    unfold pim4328_probe
    simp [h1, abort]
  · cases h2 : host.kzalloc_ok
    · exfalso
      revert hb
      unfold pim4328_probe
      simp [h1, h2]
    · by_cases h3 : (host.read_block_data PMBUS_MFR_MODEL).1 < 0
      · exfalso
        revert hb
        unfold pim4328_probe
        simp [h1, h2, h3, abort]
      · cases h4 : scan_id_table pim4328_id (host.read_block_data PMBUS_MFR_MODEL).2 with
        | none =>
          exfalso
          revert hb
          unfold pim4328_probe
          simp [h1, h2, h3, h4, abort]
        | some mid =>
          obtain ⟨l, hl, _⟩ := probe_after_scan host id mid h1 h2 (by omega) h4
          rw [hl] at hb ⊢
          obtain ⟨e1, e2⟩ := fetch_and_bind_bound host _ d l hb
          exact ⟨mid, rfl, rfl, by omega, rfl, e1, by rw [e2, e1]⟩

end Pim4328

namespace Pim4328

open Pmbus

/-- The descriptor built for each variant, field by field. -/
theorem build_data_table :
    (∀ v : chips, (build_data v).id = v ∧ (build_data v).info.pages = 1 ∧
      (build_data v).info.read_byte_data = some Hook.pim4328_read_byte_data ∧
      (build_data v).info.read_word_data = some Hook.pim4328_read_word_data) ∧
      ((build_data chips.pim4328).info.phases 0 = 2 ∧
        (build_data chips.pim4328).info.format pmbus_sensor_classes.PSC_VOLTAGE_IN =
          pmbus_data_format.direct ∧
        (build_data chips.pim4328).info.func 0 =
          PMBUS_HAVE_VCAP ||| PMBUS_HAVE_VIN ||| PMBUS_HAVE_TEMP ||| PMBUS_HAVE_IOUT ∧
        (∀ f ∈ capability_flags, (build_data chips.pim4328).info.func 0 &&& f ≠ 0 ↔
          f ∈ [PMBUS_HAVE_VCAP, PMBUS_HAVE_VIN, PMBUS_HAVE_TEMP, PMBUS_HAVE_IOUT]) ∧
        (build_data chips.pim4328).info.pfunc 0 = PMBUS_HAVE_VIN ∧
        (build_data chips.pim4328).info.pfunc 1 = PMBUS_HAVE_VIN) ∧
      ((build_data chips.pim4006).info.phases 0 = 2 ∧
        (build_data chips.pim4006).info.format pmbus_sensor_classes.PSC_VOLTAGE_IN =
          pmbus_data_format.linear ∧
        (build_data chips.pim4006).info.func 0 =
          PMBUS_PHASE_VIRTUAL ||| PMBUS_HAVE_VIN ||| PMBUS_HAVE_TEMP ||| PMBUS_HAVE_IOUT ∧
        (∀ f ∈ capability_flags, (build_data chips.pim4006).info.func 0 &&& f ≠ 0 ↔
          f ∈ [PMBUS_PHASE_VIRTUAL, PMBUS_HAVE_VIN, PMBUS_HAVE_TEMP, PMBUS_HAVE_IOUT]) ∧
        (build_data chips.pim4006).info.pfunc 0 = PMBUS_HAVE_VIN ||| PMBUS_HAVE_IIN ∧
        (build_data chips.pim4006).info.pfunc 1 = PMBUS_HAVE_VIN ||| PMBUS_HAVE_IIN ∧
        (∀ f ∈ capability_flags, (build_data chips.pim4006).info.pfunc 0 &&& f ≠ 0 ↔
          f ∈ [PMBUS_HAVE_VIN, PMBUS_HAVE_IIN])) ∧
      ((build_data chips.pim4820).info.phases 0 = 0 ∧
        (build_data chips.pim4820).info.format pmbus_sensor_classes.PSC_VOLTAGE_IN =
          pmbus_data_format.direct ∧
        (build_data chips.pim4820).info.func 0 =
          PMBUS_HAVE_VIN ||| PMBUS_HAVE_TEMP ||| PMBUS_HAVE_IIN |||
            PMBUS_HAVE_STATUS_INPUT ∧
        (∀ f ∈ capability_flags, (build_data chips.pim4820).info.func 0 &&& f ≠ 0 ↔
          f ∈ [PMBUS_HAVE_VIN, PMBUS_HAVE_TEMP, PMBUS_HAVE_IIN,
            PMBUS_HAVE_STATUS_INPUT]) ∧
        (∀ k : Nat, (build_data chips.pim4820).info.pfunc k = 0)) := by
  refine ⟨?_, ?_, ?_, ?_⟩
  · intro v
    cases v <;> exact ⟨rfl, rfl, rfl, rfl⟩
  · exact ⟨by decide, by decide, by decide, by decide, by decide, by decide⟩
  · exact ⟨by decide, by decide, by decide, by decide, by decide, by decide, by decide⟩
  · exact ⟨by decide, by decide, by decide, by decide, fun _ => rfl⟩

end Pim4328

/-- C15: the descriptor the multi-phase probe hands to the generic bind is a
function of the resolved variant alone (two probes that resolve the same
variant bind equal descriptors) and equals the register-map table: page count
1 and both hooks for every variant; pim4328 has 2 phases, direct Vin format,
capabilities exactly Vcap, Vin, Temp, Iout and per-phase capability Vin on
phases 0 and 1; pim4006 has 2 phases, linear Vin format, capabilities exactly
virtual-phase, Vin, Temp, Iout and per-phase capabilities Vin, Iin on phases 0
and 1; pim4820 has 0 phases, direct Vin format, capabilities exactly Vin, Temp,
Iin, status-input and no per-phase capability. -/
theorem C15_descriptor_is_register_map (host host2 : Host)
    (id id2 : i2c_device_id chips) (d d2 : pim4328_data)
    (hb : (pim4328_probe host id).bound = some d)
    (hb2 : (pim4328_probe host2 id2).bound = some d2) :
    d = build_data d.id ∧ (d2.id = d.id → d2 = d) ∧
      d.info.pages = 1 ∧
      (d.id = chips.pim4328 →
        d.info.phases 0 = 2 ∧
          d.info.format pmbus_sensor_classes.PSC_VOLTAGE_IN = pmbus_data_format.direct ∧
          d.info.func 0 =
            PMBUS_HAVE_VCAP ||| PMBUS_HAVE_VIN ||| PMBUS_HAVE_TEMP ||| PMBUS_HAVE_IOUT ∧
          (∀ f ∈ capability_flags, d.info.func 0 &&& f ≠ 0 ↔
            f ∈ [PMBUS_HAVE_VCAP, PMBUS_HAVE_VIN, PMBUS_HAVE_TEMP, PMBUS_HAVE_IOUT]) ∧
          d.info.pfunc 0 = PMBUS_HAVE_VIN ∧ d.info.pfunc 1 = PMBUS_HAVE_VIN) ∧
      (d.id = chips.pim4006 →
        d.info.phases 0 = 2 ∧
          d.info.format pmbus_sensor_classes.PSC_VOLTAGE_IN = pmbus_data_format.linear ∧
          d.info.func 0 =
            PMBUS_PHASE_VIRTUAL ||| PMBUS_HAVE_VIN ||| PMBUS_HAVE_TEMP |||
              PMBUS_HAVE_IOUT ∧
          (∀ f ∈ capability_flags, d.info.func 0 &&& f ≠ 0 ↔
            f ∈ [PMBUS_PHASE_VIRTUAL, PMBUS_HAVE_VIN, PMBUS_HAVE_TEMP,
              PMBUS_HAVE_IOUT]) ∧
          d.info.pfunc 0 = PMBUS_HAVE_VIN ||| PMBUS_HAVE_IIN ∧
          d.info.pfunc 1 = PMBUS_HAVE_VIN ||| PMBUS_HAVE_IIN) ∧
      (d.id = chips.pim4820 →
        d.info.phases 0 = 0 ∧
          d.info.format pmbus_sensor_classes.PSC_VOLTAGE_IN = pmbus_data_format.direct ∧
          d.info.func 0 =
            PMBUS_HAVE_VIN ||| PMBUS_HAVE_TEMP ||| PMBUS_HAVE_IIN |||
              PMBUS_HAVE_STATUS_INPUT ∧
          (∀ f ∈ capability_flags, d.info.func 0 &&& f ≠ 0 ↔
            f ∈ [PMBUS_HAVE_VIN, PMBUS_HAVE_TEMP, PMBUS_HAVE_IIN,
              PMBUS_HAVE_STATUS_INPUT]) ∧
          (∀ k : Nat, d.info.pfunc k = 0)) := by
  obtain ⟨mid, _, _, _, _, hd, _⟩ := probe_bound host id d hb
  obtain ⟨mid2, _, _, _, _, hd2, _⟩ := probe_bound host2 id2 d2 hb2
  have hbd := build_data_table
  have hid : d.id = mid.driver_data := by rw [hd]; exact (hbd.1 _).1
  have hid2 : d2.id = mid2.driver_data := by rw [hd2]; exact (hbd.1 _).1
  have hself : d = build_data d.id := by rw [hid]; exact hd
  have hself2 : d2 = build_data d2.id := by rw [hid2]; exact hd2
  refine ⟨hself, ?_, ?_, ?_, ?_, ?_⟩
  · intro h
    rw [hself2, h, ← hself]
  · rw [hself]
    exact (hbd.1 _).2.1
  · intro h
    rw [hself, h]
    exact hbd.2.1
  · intro h
    rw [hself, h]
    obtain ⟨a1, a2, a3, a4, a5, a6, _⟩ := hbd.2.2.1
    exact ⟨a1, a2, a3, a4, a5, a6⟩
  · intro h
    rw [hself, h]
    exact hbd.2.2.2

/-- Witness of C15: the sample host reports `PIM4328`; the bound descriptor is
the one built for pim4328, with two phases. -/
theorem C15_descriptor_is_register_map_witness :
    (pim4328_probe Sample.host Sample.configured).bound =
        some (build_data chips.pim4328) ∧
      (build_data chips.pim4328).info.phases 0 = 2 := by
  have hb : (pim4328_probe Sample.host Sample.configured).bound =
      some (build_data chips.pim4328) := rfl
  exact ⟨hb, ((C15_descriptor_is_register_map Sample.host Sample.host
    Sample.configured Sample.configured _ _ hb hb).2.2.2.1 rfl).1⟩

namespace Pim4328

open Pmbus

/-- The statically configured entry influences neither the return value, nor
the bound descriptor, nor the calls made to the collaborators. -/
theorem probe_config_irrelevant (host : Host) (id id2 : i2c_device_id chips) :
    (pim4328_probe host id).ret = (pim4328_probe host id2).ret ∧
      (pim4328_probe host id).bound = (pim4328_probe host id2).bound ∧
      (pim4328_probe host id).log.calls = (pim4328_probe host id2).log.calls := by
  cases h1 : i2c_check_functionality host
      (I2C_FUNC_SMBUS_READ_BYTE_DATA ||| I2C_FUNC_SMBUS_BLOCK_DATA)
  · unfold pim4328_probe
    simp [h1]
  · cases h2 : host.kzalloc_ok
    · unfold pim4328_probe
      simp [h1, h2]
    · by_cases h3 : (host.read_block_data PMBUS_MFR_MODEL).1 < 0
      · unfold pim4328_probe
        simp [h1, h2, h3]
      · cases h4 : scan_id_table pim4328_id (host.read_block_data PMBUS_MFR_MODEL).2 with
        | none =>
          unfold pim4328_probe
          simp [h1, h2, h3, h4]
        | some mid =>
          obtain ⟨l, hl, hc⟩ := probe_after_scan host id mid h1 h2 (by omega) h4
          obtain ⟨l2, hl2, hc2⟩ := probe_after_scan host id2 mid h1 h2 (by omega) h4
          rw [hl, hl2]
          have h := fetch_and_bind_log_irrelevant host (build_data mid.driver_data) l l2
          exact ⟨h.1, h.2,
            fetch_and_bind_calls host _ l l2 (hc.trans hc2.symm)⟩

end Pim4328

/-- C16: mismatch handling of the multi-phase probe: on the same host
(capabilities, allocation, model string, coefficient-fetch results, generic
bind result) the return value, the bound descriptor with its stored variant
and the calls made are the same for every statically configured entry; the
stored variant is the one the table scan detects from the model string; so a
configured variant that differs from the detected one gives the outcome of
the matching configuration and causes no abort. -/
theorem C16_mismatch_never_blocks (host : Host) (id id2 : i2c_device_id chips) :
    (pim4328_probe host id).ret = (pim4328_probe host id2).ret ∧
      (pim4328_probe host id).bound = (pim4328_probe host id2).bound ∧
      (pim4328_probe host id).log.calls = (pim4328_probe host id2).log.calls ∧
      (∀ d : pim4328_data, (pim4328_probe host id).bound = some d →
        ∃ mid : i2c_device_id chips,
          scan_id_table pim4328_id (host.read_block_data PMBUS_MFR_MODEL).2 =
              some mid ∧
            d.id = mid.driver_data) ∧
      (∀ mid : i2c_device_id chips,
        scan_id_table pim4328_id (host.read_block_data PMBUS_MFR_MODEL).2 = some mid →
        id.driver_data ≠ mid.driver_data →
        (pim4328_probe host id).ret = (pim4328_probe host mid).ret ∧
          (pim4328_probe host id).bound = (pim4328_probe host mid).bound) := by
  have h := probe_config_irrelevant host id id2
  refine ⟨h.1, h.2.1, h.2.2, ?_, ?_⟩
  · intro d hb
    obtain ⟨mid, _, _, _, hs, hd, _⟩ := probe_bound host id d hb
    refine ⟨mid, hs, ?_⟩
    rw [hd]
    exact (build_data_table.1 _).1
  · intro mid _ _
    have h2 := probe_config_irrelevant host id mid
    exact ⟨h2.1, h2.2.1⟩

/-- Witness of C16: the sample host reports `PIM4328`; configured as pim4006
the probe returns what it returns configured as pim4328, and logs the
mismatch. -/
theorem C16_mismatch_never_blocks_witness :
    (pim4328_probe Sample.host Sample.configured).ret =
        (pim4328_probe Sample.host
          { name := "pim4328".toList, driver_data := chips.pim4328 }).ret ∧
      (pim4328_probe Sample.host Sample.configured).ret = 0 ∧
      (pim4328_probe Sample.host Sample.configured).log.klog =
        [Msg.device_mismatch "pim4006".toList "pim4328".toList] :=
  ⟨(C16_mismatch_never_blocks Sample.host Sample.configured
      { name := "pim4328".toList, driver_data := chips.pim4328 }).1,
    by decide, by decide⟩

namespace Pim4328

open Pmbus

/-- A probe that does not bind has not called the generic bind. -/
theorem probe_no_bind (host : Host) (id : i2c_device_id chips)
    (hb : (pim4328_probe host id).bound = none) :
    Call.do_probe ∉ (pim4328_probe host id).log.calls := by
  cases h1 : i2c_check_functionality host
      (I2C_FUNC_SMBUS_READ_BYTE_DATA ||| I2C_FUNC_SMBUS_BLOCK_DATA)
  · unfold pim4328_probe
    simp [h1, abort]
  · cases h2 : host.kzalloc_ok
    · unfold pim4328_probe
      simp [h1, h2, ProbeLog.call]
    · by_cases h3 : (host.read_block_data PMBUS_MFR_MODEL).1 < 0
      · unfold pim4328_probe
        simp [h1, h2, h3, abort, ProbeLog.call, ProbeLog.msg]
      · cases h4 : scan_id_table pim4328_id (host.read_block_data PMBUS_MFR_MODEL).2 with
        | none =>
          unfold pim4328_probe
          simp [h1, h2, h3, h4, abort, ProbeLog.call, ProbeLog.msg]
        | some mid =>
          obtain ⟨l, hl, hc⟩ := probe_after_scan host id mid h1 h2 (by omega) h4
          rw [hl] at hb ⊢
          exact fetch_and_bind_no_bind host _ l (by rw [hc]; decide) hb

/-- The outcome of the probe when one of its first four steps fails. -/
theorem probe_early_exits (host : Host) (id : i2c_device_id chips) :
    (i2c_check_functionality host
          (I2C_FUNC_SMBUS_READ_BYTE_DATA ||| I2C_FUNC_SMBUS_BLOCK_DATA) = false →
        (pim4328_probe host id).ret = - ENODEV ∧
          (pim4328_probe host id).bound = none) ∧
      (i2c_check_functionality host
          (I2C_FUNC_SMBUS_READ_BYTE_DATA ||| I2C_FUNC_SMBUS_BLOCK_DATA) = true →
        host.kzalloc_ok = false →
        (pim4328_probe host id).ret = - ENOMEM ∧
          (pim4328_probe host id).bound = none) ∧
      (i2c_check_functionality host
          (I2C_FUNC_SMBUS_READ_BYTE_DATA ||| I2C_FUNC_SMBUS_BLOCK_DATA) = true →
        host.kzalloc_ok = true →
        (host.read_block_data PMBUS_MFR_MODEL).1 < 0 →
        (pim4328_probe host id).ret = - ENODEV ∧
          (pim4328_probe host id).bound = none) ∧
      (i2c_check_functionality host
          (I2C_FUNC_SMBUS_READ_BYTE_DATA ||| I2C_FUNC_SMBUS_BLOCK_DATA) = true →
        host.kzalloc_ok = true →
        0 ≤ (host.read_block_data PMBUS_MFR_MODEL).1 →
        scan_id_table pim4328_id (host.read_block_data PMBUS_MFR_MODEL).2 = none →
        (pim4328_probe host id).ret = - ENODEV ∧
          (pim4328_probe host id).bound = none) := by
  refine ⟨?_, ?_, ?_, ?_⟩
  · intro h1
    unfold pim4328_probe
    simp [h1, abort]
  · intro h1 h2
    unfold pim4328_probe
    simp [h1, h2]
  · intro h1 h2 h3
    unfold pim4328_probe
    simp [h1, h2, h3, abort]
  · intro h1 h2 h3 h4
    have h3n : ¬ (host.read_block_data PMBUS_MFR_MODEL).1 < 0 := by omega
    unfold pim4328_probe
    simp [h1, h2, h3n, h4, abort]

end Pim4328

namespace Stpddc60

open Pmbus

/-- The outcome of the regulator probe, step by step. -/
theorem stpddc60_probe_result (host : Host) (id : i2c_device_id chips) :
    (i2c_check_functionality host
          (I2C_FUNC_SMBUS_READ_BYTE_DATA ||| I2C_FUNC_SMBUS_BLOCK_DATA) = false →
        (stpddc60_probe host id).ret = - ENODEV ∧
          (stpddc60_probe host id).bound = none ∧
          Call.do_probe ∉ (stpddc60_probe host id).log.calls) ∧
      (i2c_check_functionality host
          (I2C_FUNC_SMBUS_READ_BYTE_DATA ||| I2C_FUNC_SMBUS_BLOCK_DATA) = true →
        (host.read_block_data PMBUS_MFR_MODEL).1 < 0 →
        (stpddc60_probe host id).ret = (host.read_block_data PMBUS_MFR_MODEL).1 ∧
          (stpddc60_probe host id).bound = none ∧
          Call.do_probe ∉ (stpddc60_probe host id).log.calls) ∧
      (i2c_check_functionality host
          (I2C_FUNC_SMBUS_READ_BYTE_DATA ||| I2C_FUNC_SMBUS_BLOCK_DATA) = true →
        0 ≤ (host.read_block_data PMBUS_MFR_MODEL).1 →
        scan_id_table stpddc60_id (host.read_block_data PMBUS_MFR_MODEL).2 = none →
        (stpddc60_probe host id).ret = - ENODEV ∧
          (stpddc60_probe host id).bound = none ∧
          Call.do_probe ∉ (stpddc60_probe host id).log.calls) ∧
      (i2c_check_functionality host
          (I2C_FUNC_SMBUS_READ_BYTE_DATA ||| I2C_FUNC_SMBUS_BLOCK_DATA) = true →
        0 ≤ (host.read_block_data PMBUS_MFR_MODEL).1 →
        scan_id_table stpddc60_id (host.read_block_data PMBUS_MFR_MODEL).2 ≠ none →
        ∃ info : pmbus_driver_info,
          (stpddc60_probe host id).bound = some info ∧
            (stpddc60_probe host id).ret = host.do_probe info ∧
            info.read_byte_data = some Hook.stpddc60_read_byte_data ∧
            info.read_word_data = some Hook.stpddc60_read_word_data ∧
            info.write_word_data = some Hook.stpddc60_write_word_data) := by
  refine ⟨?_, ?_, ?_, ?_⟩
  · intro h1
    unfold stpddc60_probe
    simp [h1]
  · intro h1 h3
    unfold stpddc60_probe
    simp [h1, h3, ProbeLog.call, ProbeLog.msg]
  · intro h1 h3 h4
    have h3n : ¬ (host.read_block_data PMBUS_MFR_MODEL).1 < 0 := by omega
    unfold stpddc60_probe
    simp [h1, h3n, h4, ProbeLog.call, ProbeLog.msg]
  · intro h1 h3 h4
    have h3n : ¬ (host.read_block_data PMBUS_MFR_MODEL).1 < 0 := by omega
    cases hs : scan_id_table stpddc60_id (host.read_block_data PMBUS_MFR_MODEL).2 with
    | none => exact absurd hs h4
    | some mid =>
      unfold stpddc60_probe
      simp [h1, h3n, hs]

end Stpddc60

/-- C17, the claim as stated fails: when the descriptor allocation fails the
multi-phase probe returns `-ENOMEM` (`-12`), not `-ENODEV` (`-19`). -/
theorem C17_abort_policy_counterexample :
    i2c_check_functionality Sample.host_nomem
        (I2C_FUNC_SMBUS_READ_BYTE_DATA ||| I2C_FUNC_SMBUS_BLOCK_DATA) = true ∧
      Sample.host_nomem.kzalloc_ok = false ∧
      (pim4328_probe Sample.host_nomem Sample.configured).ret = - ENOMEM ∧
      (pim4328_probe Sample.host_nomem Sample.configured).ret ≠ - ENODEV ∧
      (pim4328_probe Sample.host_nomem Sample.configured).bound.isSome = false := by
  decide

/-- C17, amended: in the multi-phase probe a failed transport capability
check, manufacturer-model block read (whatever its error code), identity
resolution, block-process-call capability check or coefficient fetch (whatever
its error code) makes the probe return `-ENODEV`, and a failed descriptor
allocation makes it return `-ENOMEM`, in each case without calling the generic
bind; in the regulator probe a failed manufacturer-model block read makes the
probe return that read's own error code; in both families, when every earlier
step succeeds, the probe returns the generic bind's result unchanged. -/
theorem C17_abort_policy_amended (host : Host) (id : i2c_device_id chips)
    (sid : i2c_device_id Stpddc60.chips) :
    (i2c_check_functionality host
          (I2C_FUNC_SMBUS_READ_BYTE_DATA ||| I2C_FUNC_SMBUS_BLOCK_DATA) = false →
        (pim4328_probe host id).ret = - ENODEV ∧
          (pim4328_probe host id).bound = none) ∧
      (i2c_check_functionality host
          (I2C_FUNC_SMBUS_READ_BYTE_DATA ||| I2C_FUNC_SMBUS_BLOCK_DATA) = true →
        host.kzalloc_ok = false →
        (pim4328_probe host id).ret = - ENOMEM ∧
          (pim4328_probe host id).bound = none) ∧
      (i2c_check_functionality host
          (I2C_FUNC_SMBUS_READ_BYTE_DATA ||| I2C_FUNC_SMBUS_BLOCK_DATA) = true →
        host.kzalloc_ok = true →
        (host.read_block_data PMBUS_MFR_MODEL).1 < 0 →
        (pim4328_probe host id).ret = - ENODEV ∧
          (pim4328_probe host id).bound = none) ∧
      (i2c_check_functionality host
          (I2C_FUNC_SMBUS_READ_BYTE_DATA ||| I2C_FUNC_SMBUS_BLOCK_DATA) = true →
        host.kzalloc_ok = true →
        0 ≤ (host.read_block_data PMBUS_MFR_MODEL).1 →
        scan_id_table pim4328_id (host.read_block_data PMBUS_MFR_MODEL).2 = none →
        (pim4328_probe host id).ret = - ENODEV ∧
          (pim4328_probe host id).bound = none) ∧
      (∀ mid : i2c_device_id chips,
        i2c_check_functionality host
          (I2C_FUNC_SMBUS_READ_BYTE_DATA ||| I2C_FUNC_SMBUS_BLOCK_DATA) = true →
        host.kzalloc_ok = true →
        0 ≤ (host.read_block_data PMBUS_MFR_MODEL).1 →
        scan_id_table pim4328_id (host.read_block_data PMBUS_MFR_MODEL).2 = some mid →
        ((build_data mid.driver_data).info.format pmbus_sensor_classes.PSC_VOLTAGE_IN =
              pmbus_data_format.direct →
            i2c_check_functionality host I2C_FUNC_SMBUS_BLOCK_PROC_CALL = false →
            (pim4328_probe host id).ret = - ENODEV ∧
              (pim4328_probe host id).bound = none) ∧
          ((build_data mid.driver_data).info.format pmbus_sensor_classes.PSC_VOLTAGE_IN =
              pmbus_data_format.direct →
            i2c_check_functionality host I2C_FUNC_SMBUS_BLOCK_PROC_CALL = true →
            (∃ t ∈ coefficient_requests,
              (build_data mid.driver_data).info.func 0 &&& t.1 ≠ 0 ∧
                host.read_coefficients t.2.1 t.2.2 < 0) →
            (pim4328_probe host id).ret = - ENODEV ∧
              (pim4328_probe host id).bound = none) ∧
          (((build_data mid.driver_data).info.format pmbus_sensor_classes.PSC_VOLTAGE_IN =
              pmbus_data_format.direct →
              i2c_check_functionality host I2C_FUNC_SMBUS_BLOCK_PROC_CALL = true ∧
                ¬ ∃ t ∈ coefficient_requests,
                  (build_data mid.driver_data).info.func 0 &&& t.1 ≠ 0 ∧
                    host.read_coefficients t.2.1 t.2.2 < 0) →
            (pim4328_probe host id).ret =
                host.do_probe (build_data mid.driver_data).info ∧
              (pim4328_probe host id).bound = some (build_data mid.driver_data))) ∧
      ((pim4328_probe host id).bound = none →
        Call.do_probe ∉ (pim4328_probe host id).log.calls) ∧
      (i2c_check_functionality host
          (I2C_FUNC_SMBUS_READ_BYTE_DATA ||| I2C_FUNC_SMBUS_BLOCK_DATA) = true →
        (host.read_block_data PMBUS_MFR_MODEL).1 < 0 →
        (stpddc60_probe host sid).ret = (host.read_block_data PMBUS_MFR_MODEL).1 ∧
          (stpddc60_probe host sid).bound = none ∧
          Call.do_probe ∉ (stpddc60_probe host sid).log.calls) ∧
      (i2c_check_functionality host
          (I2C_FUNC_SMBUS_READ_BYTE_DATA ||| I2C_FUNC_SMBUS_BLOCK_DATA) = true →
        0 ≤ (host.read_block_data PMBUS_MFR_MODEL).1 →
        scan_id_table stpddc60_id (host.read_block_data PMBUS_MFR_MODEL).2 ≠ none →
        ∃ info : pmbus_driver_info,
          (stpddc60_probe host sid).bound = some info ∧
            (stpddc60_probe host sid).ret = host.do_probe info) := by
  have he := probe_early_exits host id
  have hr := stpddc60_probe_result host sid
  refine ⟨he.1, he.2.1, he.2.2.1, he.2.2.2, ?_, probe_no_bind host id, hr.2.1, ?_⟩
  · intro mid h1 h2 h3 h4
    obtain ⟨l, hl, _⟩ := probe_after_scan host id mid h1 h2 h3 h4
    rw [hl]
    have hf := fetch_and_bind_result host (build_data mid.driver_data) l
    refine ⟨hf.2.1, hf.2.2.1, ?_⟩
    intro hok
    by_cases hd : (build_data mid.driver_data).info.format
        pmbus_sensor_classes.PSC_VOLTAGE_IN = pmbus_data_format.direct
    · exact hf.2.2.2 hd (hok hd).1 (hok hd).2
    · exact hf.1 hd
  · intro h1 h3 h4
    obtain ⟨info, hb, hret, _⟩ := hr.2.2.2 h1 h3 h4
    exact ⟨info, hb, hret⟩

/-- Witness of the amended C17: with a block read that fails with `-5` the
multi-phase probe returns `-ENODEV` and the regulator probe returns `-5`; on
the host that reports `BMR481` the regulator probe returns the generic bind's
result 7. -/
theorem C17_abort_policy_amended_witness :
    (pim4328_probe Sample.host_noblock Sample.configured).ret = -19 ∧
      (stpddc60_probe Sample.host_noblock
        { name := "bmr481".toList, driver_data := Stpddc60.chips.stpddc60 }).ret = -5 ∧
      (stpddc60_probe Sample.host_regulator
        { name := "bmr481".toList, driver_data := Stpddc60.chips.stpddc60 }).ret = 7 := by
  have h := C17_abort_policy_amended Sample.host_noblock Sample.configured
    { name := "bmr481".toList, driver_data := Stpddc60.chips.stpddc60 }
  exact ⟨(h.2.2.1 (by decide) (by decide) (by decide)).1,
    (h.2.2.2.2.2.2.1 (by decide) (by decide)).1, by decide⟩

namespace Pim4328

open Pmbus

/-- On pim4820 the byte hook serves the status-input register with a
non-negative value; on the other variants it answers `-ENXIO` without a
transport access. -/
theorem status_input_served {σ : Type} (bus : Bus σ) (page : Int) (c : Client σ)
    (hp : page ≤ 0) :
    0 ≤ (pim4328_read_byte_data bus chips.pim4820 page PMBUS_STATUS_INPUT c).1 ∧
      (∀ id : chips, id ≠ chips.pim4820 →
        pim4328_read_byte_data bus id page PMBUS_STATUS_INPUT c = (- ENXIO, c)) := by
  have hpage : ¬ page > 0 := by omega
  have hreg : ¬ PMBUS_STATUS_INPUT = PMBUS_STATUS_BYTE := by decide
  constructor
  · unfold pim4328_read_byte_data
    simp only [hpage, hreg, if_false, if_true]
    split_ifs <;> dsimp only <;> decide
  · intro id hid
    unfold pim4328_read_byte_data
    simp only [hpage, hreg, hid, if_false, if_true]

end Pim4328

/-- C18, evaluated at the failing input: on the sample host (model `PIM4328`,
every step succeeds) the probe fetches coefficients for the output-voltage,
input-voltage, output-current and temperature classes, but in the descriptor
it binds only the input-voltage class has the direct format; the
output-voltage, output-current and temperature classes are left at `linear`. -/
theorem C18_fetched_class_left_linear :
    (pim4328_probe Sample.host Sample.configured).bound =
        some (build_data chips.pim4328) ∧
      (pim4328_probe Sample.host Sample.configured).log.calls =
        [Call.check_functionality
          (I2C_FUNC_SMBUS_READ_BYTE_DATA ||| I2C_FUNC_SMBUS_BLOCK_DATA),
         Call.kzalloc, Call.read_block_data PMBUS_MFR_MODEL,
         Call.check_functionality I2C_FUNC_SMBUS_BLOCK_PROC_CALL,
         Call.read_coefficients pmbus_sensor_classes.PSC_VOLTAGE_OUT PMBUS_READ_VCAP,
         Call.read_coefficients pmbus_sensor_classes.PSC_VOLTAGE_IN PMBUS_READ_VIN,
         Call.read_coefficients pmbus_sensor_classes.PSC_CURRENT_OUT PMBUS_READ_IOUT,
         Call.read_coefficients pmbus_sensor_classes.PSC_TEMPERATURE
           PMBUS_READ_TEMPERATURE_1,
         Call.do_probe] ∧
      (build_data chips.pim4328).info.format pmbus_sensor_classes.PSC_VOLTAGE_IN =
        pmbus_data_format.direct ∧
      (build_data chips.pim4328).info.format pmbus_sensor_classes.PSC_VOLTAGE_OUT =
        pmbus_data_format.linear ∧
      (build_data chips.pim4328).info.format pmbus_sensor_classes.PSC_CURRENT_OUT =
        pmbus_data_format.linear ∧
      (build_data chips.pim4328).info.format pmbus_sensor_classes.PSC_TEMPERATURE =
        pmbus_data_format.linear ∧
      pmbus_data_format.linear ≠ pmbus_data_format.direct :=
  ⟨rfl, by decide, by decide, by decide, by decide, by decide, by decide⟩

/-- C19: register map and translator agree on status-input: the descriptor the
probe binds installs `pim4328_read_byte_data` and declares the status-input
capability if and only if that hook, run for the stored variant on page 0,
serves the status-input register with a non-negative value rather than
`-ENXIO`; this is the case exactly for pim4820, the variant without phases,
while both two-phase variants neither declare the capability nor serve the
register. -/
theorem C19_status_input_agreement {σ : Type} (host : Host)
    (id : i2c_device_id chips) (d : pim4328_data) (bus : Bus σ) (c : Client σ)
    (hb : (pim4328_probe host id).bound = some d) :
    d.info.read_byte_data = some Hook.pim4328_read_byte_data ∧
      (d.info.func 0 &&& PMBUS_HAVE_STATUS_INPUT ≠ 0 ↔
        0 ≤ (pim4328_read_byte_data bus d.id 0 PMBUS_STATUS_INPUT c).1) ∧
      (d.info.func 0 &&& PMBUS_HAVE_STATUS_INPUT = 0 ↔
        pim4328_read_byte_data bus d.id 0 PMBUS_STATUS_INPUT c = (- ENXIO, c)) ∧
      (d.info.func 0 &&& PMBUS_HAVE_STATUS_INPUT ≠ 0 ↔ d.id = chips.pim4820) ∧
      (d.id = chips.pim4820 ↔ d.info.phases 0 = 0) ∧
      (d.id ≠ chips.pim4820 → d.info.phases 0 = 2) := by
  obtain ⟨mid, _, _, _, _, hd, _⟩ := probe_bound host id d hb
  have hs := status_input_served bus 0 c (le_refl 0)
  have hneg : ¬ (0 : Int) ≤ (- ENXIO, c).1 := by
    show ¬ (0 : Int) ≤ - ENXIO
    decide
  subst hd
  cases hv : mid.driver_data
  · have h1 := hs.2 chips.pim4328 (by decide)
    refine ⟨rfl, ?_, ?_, ?_, ?_, ?_⟩
    · show ((build_data chips.pim4328).info.func 0 &&& PMBUS_HAVE_STATUS_INPUT ≠ 0 ↔
        0 ≤ (pim4328_read_byte_data bus chips.pim4328 0 PMBUS_STATUS_INPUT c).1)
      rw [h1]
      exact ⟨fun h => absurd (by decide) h, fun h => absurd h hneg⟩
    · show ((build_data chips.pim4328).info.func 0 &&& PMBUS_HAVE_STATUS_INPUT = 0 ↔
        pim4328_read_byte_data bus chips.pim4328 0 PMBUS_STATUS_INPUT c = (- ENXIO, c))
      exact ⟨fun _ => h1, fun _ => by decide⟩
    · show ((build_data chips.pim4328).info.func 0 &&& PMBUS_HAVE_STATUS_INPUT ≠ 0 ↔
        chips.pim4328 = chips.pim4820)
      decide
    · show (chips.pim4328 = chips.pim4820 ↔ (build_data chips.pim4328).info.phases 0 = 0)
      decide
    · intro _
      show (build_data chips.pim4328).info.phases 0 = 2
      decide
  · refine ⟨rfl, ?_, ?_, ?_, ?_, ?_⟩
    · show ((build_data chips.pim4820).info.func 0 &&& PMBUS_HAVE_STATUS_INPUT ≠ 0 ↔
        0 ≤ (pim4328_read_byte_data bus chips.pim4820 0 PMBUS_STATUS_INPUT c).1)
      exact ⟨fun _ => hs.1, fun _ => by decide⟩
    · show ((build_data chips.pim4820).info.func 0 &&& PMBUS_HAVE_STATUS_INPUT = 0 ↔
        pim4328_read_byte_data bus chips.pim4820 0 PMBUS_STATUS_INPUT c = (- ENXIO, c))
      constructor
      · intro h
        exact absurd h (by decide)
      · intro h
        have h0 := hs.1
        rw [h] at h0
        exact absurd h0 hneg
    · show ((build_data chips.pim4820).info.func 0 &&& PMBUS_HAVE_STATUS_INPUT ≠ 0 ↔
        chips.pim4820 = chips.pim4820)
      decide
    · show (chips.pim4820 = chips.pim4820 ↔ (build_data chips.pim4820).info.phases 0 = 0)
      decide
    · intro h
      exact absurd rfl h
  · have h1 := hs.2 chips.pim4006 (by decide)
    refine ⟨rfl, ?_, ?_, ?_, ?_, ?_⟩
    · show ((build_data chips.pim4006).info.func 0 &&& PMBUS_HAVE_STATUS_INPUT ≠ 0 ↔
        0 ≤ (pim4328_read_byte_data bus chips.pim4006 0 PMBUS_STATUS_INPUT c).1)
      rw [h1]
      exact ⟨fun h => absurd (by decide) h, fun h => absurd h hneg⟩
    · show ((build_data chips.pim4006).info.func 0 &&& PMBUS_HAVE_STATUS_INPUT = 0 ↔
        pim4328_read_byte_data bus chips.pim4006 0 PMBUS_STATUS_INPUT c = (- ENXIO, c))
      exact ⟨fun _ => h1, fun _ => by decide⟩
    · show ((build_data chips.pim4006).info.func 0 &&& PMBUS_HAVE_STATUS_INPUT ≠ 0 ↔
        chips.pim4006 = chips.pim4820)
      decide
    · show (chips.pim4006 = chips.pim4820 ↔ (build_data chips.pim4006).info.phases 0 = 0)
      decide
    · intro _
      show (build_data chips.pim4006).info.phases 0 = 2
      decide

/-- Witness of C19: the host that reports `pim4820-x` binds a descriptor with
the status-input capability, and the byte hook of pim4820 serves the register
on the sample device with `0x14`. -/
theorem C19_status_input_agreement_witness :
    (build_data chips.pim4820).info.func 0 &&& PMBUS_HAVE_STATUS_INPUT ≠ 0 ∧
      0 ≤ (pim4328_read_byte_data Sample.bus chips.pim4820 0 PMBUS_STATUS_INPUT
        Sample.client).1 := by
  have h := C19_status_input_agreement Sample.host4820 Sample.configured
    (build_data chips.pim4820) Sample.bus Sample.client rfl
  exact ⟨by decide, h.2.1.mp (by decide)⟩

/-- C20: range of the regulator's translated Read-Vout value: for every raw
word `w` in `0..0xFFFF` the hook's result is non-negative and at most 83947; it
is `<= 0xFFFF` if and only if `w <= 51150`; for `w <= 255` it is at most 389,
and `w = 51151` yields 65536. -/
theorem C20_read_vout_range {σ : Type} (lbits : Nat) (hl : 32 ≤ lbits)
    (bus : Bus σ) (page phase : Int) (c : Client σ) (hp : page ≤ 0) (w : Int)
    (d : σ) (hr : bus.read_word_data page phase PMBUS_READ_VOUT c.dev = (w, d))
    (h0 : 0 ≤ w) (h1 : w ≤ 0xFFFF) :
    0 ≤ (stpddc60_read_word_data lbits bus page phase PMBUS_READ_VOUT c).1 ∧
      (stpddc60_read_word_data lbits bus page phase PMBUS_READ_VOUT c).1 ≤ 83947 ∧
      ((stpddc60_read_word_data lbits bus page phase PMBUS_READ_VOUT c).1 ≤ 0xFFFF ↔
        w ≤ 51150) ∧
      (w ≤ 255 →
        (stpddc60_read_word_data lbits bus page phase PMBUS_READ_VOUT c).1 ≤ 389) ∧
      (w = 51151 →
        (stpddc60_read_word_data lbits bus page phase PMBUS_READ_VOUT c).1 = 65536) := by
  rw [read_vout_value lbits hl bus page phase c hp w d hr h0 h1]
  by_cases hz : w = 0
  · subst hz
    simp
  · rw [if_neg hz]
    refine ⟨by omega, by omega, ⟨fun h => by omega, fun h => by omega⟩,
      fun h => by omega, fun h => by omega⟩

/-- Witness of C20 on the sample device: the raw word `3` is translated to
`66`, inside `0..83947`. -/
theorem C20_read_vout_range_witness :
    0 ≤ (stpddc60_read_word_data 64 Sample.bus 0 0 PMBUS_READ_VOUT Sample.client).1 ∧
      (stpddc60_read_word_data 64 Sample.bus 0 0 PMBUS_READ_VOUT Sample.client).1 ≤
        83947 := by
  have h := C20_read_vout_range 64 (by decide) Sample.bus 0 0 Sample.client
    (by decide) 3 1 rfl (by decide) (by decide)
  exact ⟨h.1, h.2.1⟩
